import Mathlib

/-!
Verification development for the Scanly Windows media pipeline
(`src/win_scanly`).  The Python modules are shallowly embedded as
executable Lean definitions:

* `Scanly.Naming`     — `naming.py` (`_safe_component`, `build_destination`)
* `Scanly.Cleaner`    — `filename_cleaner.py` (`_extract_year`)
* `Scanly.Similarity` — `similarity.py` (`similarity_score`, `evaluate_match`)
* `Scanly.Symlink`    — `symlink.py` (`_resolve_collision`, `create_symlink`)
* `Scanly.AIParser`   — `ai_parser.py` (`ai_parse_filename`, `_disable_ai`)
* `Scanly.Processor`  — `processor.py` (`load_state`, `process_file`,
  `process_once`)

File-system paths are lists of characters / path components, scores are
rationals, provider calls and the fuzzy ratio are injected as function
parameters, and Python exceptions are modelled with `Except`.

The file is laid out as definitions first, then theorems.
-/

namespace Scanly

/-! ## Definitions -/

/-! ### Character helpers shared by the embedded modules -/

/-- ASCII digit test (Python `\d` on the inputs of this pipeline). -/
def isDig (c : Char) : Bool := 48 ≤ c.toNat && c.toNat ≤ 57

/-- Python regex word character `\w` at ASCII: letters, digits, underscore. -/
def isWordChar (c : Char) : Bool := c.isAlphanum || c = '_'

/-- Python `\s` / `str.strip()` whitespace at ASCII. -/
def isWs (c : Char) : Bool :=
  c = ' ' || c = '\t' || c = '\n' || c = '\r' || c = '\x0b' || c = '\x0c'

/-- Numeric value of an ASCII digit character. -/
def digVal (c : Char) : Nat := c.toNat - 48

/-- Decimal rendering of a natural number (Python `str(n)` / `f"{n}"`),
written with explicit fuel so that it is structurally recursive. -/
def natStrAux : Nat → Nat → List Char
  | 0, _ => []
  | fuel + 1, n =>
    if n < 10 then [Nat.digitChar n]
    else natStrAux fuel (n / 10) ++ [Nat.digitChar (n % 10)]

/-- Decimal rendering of a natural number as a character list. -/
def natStr (n : Nat) : List Char := natStrAux (n + 1) n

/-- Decimal decoding, the left inverse of `natStr`. -/
def decodeDigits (cs : List Char) : Nat :=
  cs.foldl (fun acc c => acc * 10 + digVal c) 0

/-! ### `naming.py` -/

namespace Naming

/-- Characters removed by `_safe_component`'s first substitution:
`re.sub(r"[<>:\"/\\|?*\x00-\x1F]", "", text)`. -/
def isIllegal (c : Char) : Bool :=
  c = '<' || c = '>' || c = ':' || c = '"' || c = '/' || c = '\\' ||
  c = '|' || c = '?' || c = '*' || c.toNat < 0x20

/-- One-pass worker for `re.sub(r"\s{2,}", " ", text)`.  `pending` is the
current (not yet emitted) whitespace run: `none` when outside a run,
`some (c, false)` after a single whitespace `c`, and `some (c, true)`
once the run has two or more characters.  A run of length one is emitted
unchanged, a longer run is emitted as a single space. -/
def collapseGo : Option (Char × Bool) → List Char → List Char
  | none, [] => []
  | some (c, false), [] => [c]
  | some (_, true), [] => [' ']
  | none, x :: rest =>
    if isWs x then collapseGo (some (x, false)) rest
    else x :: collapseGo none rest
  | some (c, false), x :: rest =>
    if isWs x then collapseGo (some (c, true)) rest
    else c :: x :: collapseGo none rest
  | some (c, true), x :: rest =>
    if isWs x then collapseGo (some (c, true)) rest
    else ' ' :: x :: collapseGo none rest

/-- `re.sub(r"\s{2,}", " ", text)`: every maximal run of two or more
whitespace characters becomes a single space; an isolated whitespace
character is left as it is. -/
def collapseWs (cs : List Char) : List Char := collapseGo none cs

/-- Python `str.strip()`: drop leading and trailing whitespace. -/
def pyStrip (cs : List Char) : List Char :=
  ((cs.dropWhile isWs).reverse.dropWhile isWs).reverse

/-- `naming._safe_component` on character lists. -/
def safeComponent (cs : List Char) : List Char :=
  pyStrip (collapseWs (cs.filter (fun c => !isIllegal c)))

/-- `naming._safe_component` on strings. -/
def safeComponentStr (s : String) : String :=
  ⟨safeComponent s.data⟩

/-- `naming.MediaCandidate`. -/
structure MediaCandidate where
  media_type : String
  query : String
  year_hint : Option Int := none
  season : Option Nat := none
  episode : Option Nat := none
deriving Repr, DecidableEq

/-- The duck-typed provider result as consumed by `build_destination`
(`getattr(tmdb_data, "title", None)` / `getattr(tmdb_data, "year", None)`). -/
structure ProviderData where
  title : Option String
  year : Option Int
deriving Repr, DecidableEq

/-- A source file path: directory components, `Path.stem` and `Path.suffix`. -/
structure SrcPath where
  dir : List String
  stem : String
  suffix : String
deriving Repr, DecidableEq

/-- `Path.name` is stem followed by suffix. -/
def SrcPath.fileName (p : SrcPath) : String := p.stem ++ p.suffix

/-- The destination-root part of `config.Config` used by the planner. -/
structure Roots where
  movies_dir : List String
  shows_dir : List String
  unmatched_dir : List String
deriving Repr, DecidableEq

/-- `naming.DestinationPlan` (destination as path components). -/
structure DestinationPlan where
  source : SrcPath
  destination : List String
  canonical_name : String
  media_type : String
deriving Repr, DecidableEq

/-- Python `a or b` for strings (empty string is falsy). -/
def pyOrStr (a b : String) : String := if a = "" then b else a

/-- Python truthiness of an optional integer (`None` and `0` are falsy). -/
def truthyInt : Option Int → Bool
  | none => false
  | some v => v != 0

/-- Python `a or b` for optional integers. -/
def pyOrInt (a b : Option Int) : Option Int := if truthyInt a then a else b

/-- Python truthiness of an optional string (`None` and `""` are falsy). -/
def truthyStr : Option String → Bool
  | none => false
  | some s => s != ""

/-- Python `a or b` where `a` is an optional string and `b` a string. -/
def pyOrOptStr (a : Option String) (b : String) : String :=
  match a with
  | some s => if s = "" then b else s
  | none => b

/-- Python `f"{n:02d}"` for a natural number. -/
def fmt2 (n : Nat) : String := if n < 10 then "0" ++ toString n else toString n

/-- `naming._format_season`: `f"Season {season:02d}" if season else "Season 01"`
(`season` is falsy when `None` or `0`). -/
def formatSeason : Option Nat → String
  | some s => if s ≠ 0 then "Season " ++ fmt2 s else "Season 01"
  | none => "Season 01"

/-- `naming._format_episode`: empty unless both season and episode are
present (`is None` checks, not truthiness). -/
def formatEpisode : Option Nat → Option Nat → String
  | some s, some e => "S" ++ fmt2 s ++ "E" ++ fmt2 e
  | _, _ => ""

/-- `f"{clean_title} ({year})" if year else clean_title`. -/
def withYear (clean : String) (year : Option Int) : String :=
  match year with
  | some v => if v ≠ 0 then clean ++ " (" ++ toString v ++ ")" else clean
  | none => clean

/-- `naming.build_destination`. -/
def build_destination (source : SrcPath) (candidate : MediaCandidate)
    (tmdb_data : ProviderData) (config : Roots) : DestinationPlan :=
  let title := pyOrOptStr tmdb_data.title (pyOrStr candidate.query source.stem)
  let year := pyOrInt tmdb_data.year candidate.year_hint
  let clean_title := safeComponentStr title
  if ¬ truthyStr tmdb_data.title then
    { source := source
      destination := config.unmatched_dir ++ [source.fileName]
      canonical_name := source.stem
      media_type := "unmatched" }
  else if candidate.media_type = "movie" then
    let folder_name := withYear clean_title year
    let file_name := folder_name ++ source.suffix
    { source := source
      destination := config.movies_dir ++ [folder_name, file_name]
      canonical_name := folder_name
      media_type := candidate.media_type }
  else if candidate.media_type = "show" ∨ candidate.media_type = "anime" then
    let season_dir := formatSeason candidate.season
    let sxxexx := formatEpisode candidate.season candidate.episode
    let base_name := withYear clean_title year
    let file_name :=
      (if sxxexx ≠ "" then clean_title ++ " - " ++ sxxexx else clean_title) ++
        source.suffix
    { source := source
      destination := config.shows_dir ++ [base_name, season_dir, file_name]
      canonical_name := base_name ++ "/" ++ season_dir ++ "/" ++ file_name
      media_type := candidate.media_type }
  else
    { source := source
      destination := config.unmatched_dir ++ [source.fileName]
      canonical_name := source.stem
      media_type := candidate.media_type }

end Naming

/-! ### `filename_cleaner.py` — `_extract_year` -/

namespace Cleaner

/-- The `\b` word boundary just before the match: satisfied at the start
of the string or after a non-word character. -/
def boundaryOkPrev : Option Char → Bool
  | none => true
  | some p => !isWordChar p

/-- The `\b` word boundary just after the match: satisfied at the end of
the string or before a non-word character. -/
def boundaryAfterTok : List Char → Bool
  | [] => true
  | r :: _ => !isWordChar r

/-- One attempted match of `_YEAR_RE = r"\b(19|20)\d{2}\b"` at a fixed
position: `prev` is the character just before the position (`none` at the
start of the string). -/
def matchYearHere (prev : Option Char) : List Char → Option Nat
  | d1 :: d2 :: d3 :: d4 :: rest =>
    if boundaryOkPrev prev &&
        ((d1 = '1' && d2 = '9') || (d1 = '2' && d2 = '0')) &&
        isDig d3 && isDig d4 && boundaryAfterTok rest then
      some (1000 * digVal d1 + 100 * digVal d2 + 10 * digVal d3 + digVal d4)
    else none
  | _ => none

/-- Left-to-right scan used by `re.search`: the leftmost position where
`matchYearHere` succeeds wins. -/
def findYearAux (prev : Option Char) : List Char → Option Nat
  | [] => none
  | c :: rest =>
    match matchYearHere prev (c :: rest) with
    | some y => some y
    | none => findYearAux (some c) rest

/-- `filename_cleaner._extract_year`. -/
def extractYear (cs : List Char) : Option Nat := findYearAux none cs

/-- The attempted match at index `i` of the scan that starts with
previous character `prev`. -/
def yearTokenAtAux (prev : Option Char) : List Char → Nat → Option Nat
  | cs, 0 => matchYearHere prev cs
  | [], _ + 1 => none
  | c :: rest, i + 1 => yearTokenAtAux (some c) rest i

/-- The attempted year match at index `i` of the whole input. -/
def yearTokenAt (cs : List Char) (i : Nat) : Option Nat :=
  yearTokenAtAux none cs i

/-- The character just before index `i`, where `prev` is the character
before index `0`. -/
def prevCharAtFrom (prev : Option Char) (cs : List Char) : Nat → Option Char
  | 0 => prev
  | j + 1 => cs.get? j

end Cleaner

/-! ### `similarity.py` -/

namespace Similarity

/-- The separator class of `_normalize`'s first substitution `[._\-]+`. -/
def isSep (c : Char) : Bool := c = '.' || c = '_' || c = '-'

/-- One-pass worker for `re.sub(r"[._\-]+", " ", text)`: `inRun` records
whether the previous character was a separator; each maximal separator
run is emitted as one space. -/
def normSepGo (inRun : Bool) : List Char → List Char
  | [] => if inRun then [' '] else []
  | x :: rest =>
    if isSep x then normSepGo true rest
    else if inRun then ' ' :: x :: normSepGo false rest
    else x :: normSepGo false rest

/-- `re.sub(r"[._\-]+", " ", text)`: every maximal run of separators
becomes a single space. -/
def normSep (cs : List Char) : List Char := normSepGo false cs

/-- `similarity._normalize`: separators to spaces, collapse whitespace
runs, strip, lowercase. -/
def normalize (s : String) : String :=
  ⟨(Naming.pyStrip (Naming.collapseWs (normSep s.data))).map Char.toLower⟩

/-- The `E\d{1,2}` tail of the `S..E..` alternative (greedy: two digits
preferred over one). -/
def tryEpart : List Char → Option (List Char)
  | e :: d1 :: d2 :: _ =>
    if (e = 'E' || e = 'e') && isDig d1 then
      some (if isDig d2 then [e, d1, d2] else [e, d1])
    else none
  | [e, d1] =>
    if (e = 'E' || e = 'e') && isDig d1 then some [e, d1] else none
  | _ => none

/-- The `S\d{1,2}E\d{1,2}` alternative of `_extract_sxxexx`'s regex, with
the backtracking of the greedy `\d{1,2}`. -/
def trySpart : List Char → Option (List Char)
  | s :: d1 :: rest =>
    if (s = 'S' || s = 's') && isDig d1 then
      match rest with
      | d2 :: rest2 =>
        if isDig d2 then
          match tryEpart rest2 with
          | some m => some (s :: d1 :: d2 :: m)
          | none =>
            match tryEpart (d2 :: rest2) with
            | some m => some (s :: d1 :: m)
            | none => none
        else
          match tryEpart (d2 :: rest2) with
          | some m => some (s :: d1 :: m)
          | none => none
      | [] => none
    else none
  | _ => none

/-- The `x\d{1,2}` tail of the `\d{1,2}x\d{1,2}` alternative. -/
def tryXTail : List Char → Option (List Char)
  | x :: d1 :: d2 :: _ =>
    if (x = 'x' || x = 'X') && isDig d1 then
      some (if isDig d2 then [x, d1, d2] else [x, d1])
    else none
  | [x, d1] =>
    if (x = 'x' || x = 'X') && isDig d1 then some [x, d1] else none
  | _ => none

/-- The `\d{1,2}x\d{1,2}` alternative of `_extract_sxxexx`'s regex. -/
def tryXpart : List Char → Option (List Char)
  | d1 :: rest =>
    if isDig d1 then
      match rest with
      | d2 :: rest2 =>
        if isDig d2 then
          match tryXTail rest2 with
          | some m => some (d1 :: d2 :: m)
          | none =>
            match tryXTail (d2 :: rest2) with
            | some m => some (d1 :: m)
            | none => none
        else
          match tryXTail (d2 :: rest2) with
          | some m => some (d1 :: m)
          | none => none
      | [] => none
    else none
  | [] => none

/-- One attempted match of `(S\d{1,2}E\d{1,2}|\d{1,2}x\d{1,2})` at a fixed
position (first alternative wins). -/
def matchSxxAt (cs : List Char) : Option (List Char) :=
  match trySpart cs with
  | some m => some m
  | none => tryXpart cs

/-- Leftmost-match scan of the season/episode regex. -/
def findSxx : List Char → Option (List Char)
  | [] => none
  | c :: rest =>
    match matchSxxAt (c :: rest) with
    | some m => some m
    | none => findSxx rest

/-- `similarity._extract_sxxexx` (the matched text, uppercased). -/
def extractSxxExx (s : String) : Option String :=
  (findSxx s.data).map (fun m => ⟨m.map Char.toUpper⟩)

/-- `needle` starts `hay` (used for Python's `in` on strings). -/
def listStarts : List Char → List Char → Bool
  | [], _ => true
  | _ :: _, [] => false
  | a :: as, b :: bs => a == b && listStarts as bs

/-- Python `needle in hay` for strings (contiguous substring). -/
def listContains (needle : List Char) : List Char → Bool
  | [] => listStarts needle []
  | c :: rest => listStarts needle (c :: rest) || listContains needle rest

/-- `similarity.SimilarityVerdict` (the dict built by `evaluate_match`). -/
structure Verdict where
  score : ℚ
  accepted : Bool
  warn : Bool
  reason : String
deriving Repr, DecidableEq

def THRESHOLD_STRICT : ℚ := 90

def THRESHOLD_LOOSE : ℚ := 80

/-- `similarity.similarity_score`; `ratio` stands for
`fuzz.token_sort_ratio`, an external library call. -/
def similarity_score (ratio : String → String → ℚ) (query candidate : String)
    (year_match sxxexx_match folder_context_match : Bool) : ℚ :=
  let base_score := ratio (normalize query) (normalize candidate)
  let bonus : ℚ := (if year_match then 10 else 0) +
    (if sxxexx_match then 10 else 0) +
    (if folder_context_match then 5 else 0)
  min 100 (base_score + bonus)

/-- `bool(query_year and candidate_year and query_year == candidate_year)`
(Python truthiness: `None` and `0` are falsy). -/
def yearMatch (query_year candidate_year : Option Int) : Bool :=
  match query_year, candidate_year with
  | some a, some b => a != 0 && b != 0 && a == b
  | _, _ => false

/-- `bool(folder_hint and folder_hint.lower() in candidate.lower())`. -/
def folderContextMatch (folder_hint : Option String) (candidate : String) : Bool :=
  match folder_hint with
  | none => false
  | some f =>
    f != "" && listContains (f.data.map Char.toLower) (candidate.data.map Char.toLower)

/-- `bool(sxx_q and sxx_c and sxx_q == sxx_c)`. -/
def sxxMatch (a b : Option String) : Bool :=
  match a, b with
  | some x, some y => x != "" && y != "" && x == y
  | _, _ => false

/-- `similarity.evaluate_match`. -/
def evaluate_match (ratio : String → String → ℚ) (query candidate : String)
    (query_year candidate_year : Option Int) (folder_hint : Option String) :
    Verdict :=
  let sxx_q := extractSxxExx query
  let sxx_c := extractSxxExx candidate
  let sxx := sxxMatch sxx_q sxx_c
  let year_match := yearMatch query_year candidate_year
  let folder := folderContextMatch folder_hint candidate
  let score := similarity_score ratio query candidate year_match sxx folder
  if THRESHOLD_STRICT ≤ score then
    { score := score, accepted := true, warn := false, reason := "strict_accept" }
  else if THRESHOLD_LOOSE ≤ score ∧ year_match = true then
    { score := score, accepted := true, warn := true, reason := "loose_accept_year_match" }
  else
    { score := score, accepted := false, warn := false, reason := "unmatched" }

end Similarity

/-! ### `symlink.py` -/

namespace Symlink

/-- A full file-system path rendered as characters. -/
abbrev FName := List Char

/-- A directory entry: a regular file or a symbolic link. -/
inductive Entry
  | file
  | link (target : FName)
deriving Repr, DecidableEq

/-- The file system visible to `symlink.py`: an association list from
paths to entries (earlier entries shadow later ones). -/
abbrev FS := List (FName × Entry)

/-- `Path.exists()`. -/
def FS.existsPath (fs : FS) (p : FName) : Bool := fs.any (fun e => e.1 == p)

/-- Entry lookup. -/
def FS.find (fs : FS) (p : FName) : Option Entry :=
  match fs with
  | [] => none
  | (q, e) :: rest => if q = p then some e else FS.find rest p

/-- `Path.is_symlink()`. -/
def FS.isSymlink (fs : FS) (p : FName) : Bool :=
  match FS.find fs p with
  | some (.link _) => true
  | _ => false

/-- `Path.resolve()` (one level: sources are regular files). -/
def FS.resolve (fs : FS) (p : FName) : FName :=
  match FS.find fs p with
  | some (.link t) => t
  | _ => p

/-- A destination path as `_resolve_collision` sees it: `parent`, `stem`
and `suffix`. -/
structure DPath where
  parent : FName
  stem : FName
  ext : FName
deriving Repr, DecidableEq

/-- The rendered path `parent / (stem + ext)`. -/
def DPath.render (p : DPath) : FName := p.parent ++ '/' :: (p.stem ++ p.ext)

/-- `parent / f"{base} ({index}){ext}"`. -/
def collisionName (p : DPath) (n : Nat) : DPath :=
  { p with stem := p.stem ++ (' ' :: '(' :: (natStr n ++ [')'])) }

/-- The `while True` loop of `_resolve_collision`, with explicit fuel;
by the pigeonhole argument (`searchFree_finds_least`) fuel
`fs.length + 1` always suffices, so this equals the unbounded loop. -/
def searchFree (fs : FS) (dest : DPath) : Nat → Nat → DPath
  | 0, i => collisionName dest i
  | fuel + 1, i =>
    let cand := collisionName dest i
    if FS.existsPath fs cand.render then searchFree fs dest fuel (i + 1)
    else cand

/-- `symlink._resolve_collision`. -/
def resolve_collision (fs : FS) (dest : DPath) : DPath :=
  if FS.existsPath fs dest.render then searchFree fs dest (fs.length + 1) 1
  else dest

/-- Result of `create_symlink`: the reported boolean and the file system
after the call. -/
structure LinkResult where
  ok : Bool
  fs : FS
deriving Repr, DecidableEq

/-- `symlink.create_symlink`.  `mkOk` models whether the OS-level link
creation succeeds (`os.symlink`, falling back to an NTFS junction): when
both mechanisms fail the function reports `false` and creates nothing. -/
def create_symlink (fs : FS) (source : FName) (destination : DPath)
    (mkOk : Bool) : LinkResult :=
  if FS.existsPath fs destination.render then
    if FS.isSymlink fs destination.render &&
        FS.resolve fs destination.render == FS.resolve fs source then
      { ok := true, fs := fs }
    else if mkOk then
      { ok := true,
        fs := ((resolve_collision fs destination).render, Entry.link source) :: fs }
    else { ok := false, fs := fs }
  else if mkOk then
    { ok := true, fs := (destination.render, Entry.link source) :: fs }
  else { ok := false, fs := fs }

end Symlink

/-! ### `ai_parser.py` -/

namespace AIParser

/-- The module-level enrichment state: `USE_AI` and `_AI_DISABLED_REASON`. -/
structure AIState where
  useAI : Bool
  disabledReason : Option String
deriving Repr, DecidableEq

/-- Outcome of one HTTP round trip to the hint provider, as discriminated
by the `except` clauses of `ai_parse_filename`.  `D` is the parsed JSON
dict payload. -/
inductive HTTPOutcome (D : Type)
  | connError
  | httpError (status : Option Nat)
  | timeout
  | invalidJson
  | emptyResponse
  | nonDictResponse
  | success (data : D)
  | otherError

/-- `ai_parser._disable_ai`. -/
def disable_ai (st : AIState) (reason : String) : AIState :=
  { useAI := false
    disabledReason :=
      match st.disabledReason with
      | none => some reason
      | some r => some r }

/-- Result of one `ai_parse_filename` call: the new module state, the
returned hint, and whether any network I/O was attempted. -/
structure CallResult (D : Type) where
  state : AIState
  output : Option D
  attemptedIO : Bool

/-- `ai_parser.ai_parse_filename`.  `serviceUp` models the
`_is_ollama_running() or _start_ollama_service()` pre-check. -/
def ai_parse_filename {D : Type} (st : AIState) (filename : String)
    (serviceUp : Bool) (outcome : HTTPOutcome D) : CallResult D :=
  if ¬ st.useAI then { state := st, output := none, attemptedIO := false }
  else if ¬ serviceUp then { state := st, output := none, attemptedIO := true }
  else
    match outcome with
    | .connError =>
      { state := disable_ai st "unable to reach Ollama service"
        output := none, attemptedIO := true }
    | .httpError status =>
      { state := disable_ai st
          ("HTTP " ++ (match status with | some c => toString c | none => "unknown") ++
            " from Ollama endpoint while parsing '" ++ filename ++ "'")
        output := none, attemptedIO := true }
    | .timeout => { state := st, output := none, attemptedIO := true }
    | .invalidJson => { state := st, output := none, attemptedIO := true }
    | .emptyResponse => { state := st, output := none, attemptedIO := true }
    | .nonDictResponse => { state := st, output := none, attemptedIO := true }
    | .success data => { state := st, output := some data, attemptedIO := true }
    | .otherError => { state := st, output := none, attemptedIO := true }

/-- A sequence of enrichment calls, threading the module state. -/
def runCalls {D : Type} (st : AIState) :
    List (String × Bool × HTTPOutcome D) → AIState × List (Option D × Bool)
  | [] => (st, [])
  | (fn, up, oc) :: rest =>
    let r := ai_parse_filename st fn up oc
    let (st', outs) := runCalls r.state rest
    (st', (r.output, r.attemptedIO) :: outs)

end AIParser

/-! ### `processor.load_state` -/

namespace StateStore

/-- JSON values as produced by `json.load`. -/
inductive JValue
  | null
  | jbool (b : Bool)
  | num (q : ℚ)
  | str (s : String)
  | arr (xs : List JValue)
  | obj (fields : List (String × JValue))

/-- What reading the state file can yield: the file is missing, the read
raised, the JSON parse raised, or a parsed value. -/
inductive FileRead
  | missing
  | unreadable
  | parseFailed
  | parsed (v : JValue)

/-- `float(value)` guarded by `isinstance(value, (float, int))`; note that
Python `bool` is a subclass of `int`, so JSON booleans pass the guard and
are coerced (`float(True) == 1.0`). -/
def numValue : JValue → Option ℚ
  | .num q => some q
  | .jbool b => some (if b then 1 else 0)
  | _ => none

/-- `processor.load_state`.  Every failure path is caught and yields the
empty mapping (a non-object top level raises `AttributeError` inside the
`try`, which is also caught). -/
def load_state : FileRead → List (String × ℚ)
  | .missing => []
  | .unreadable => []
  | .parseFailed => []
  | .parsed v =>
    match v with
    | .obj fields =>
      fields.filterMap (fun kv => (numValue kv.2).map (fun q => (kv.1, q)))
    | _ => []

end StateStore

/-! ### `processor.process_file` / `process_once` -/

namespace Processor

/-- The in-memory scan state (`Dict[str, float]`), modelled as a map. -/
def StateMap : Type := String → Option ℚ

/-- `state[key] = mtime`. -/
def StateMap.set (st : StateMap) (k : String) (v : ℚ) : StateMap :=
  fun q => if q = k then some v else st q

/-- A provider result (`IMDbResult` / `TMDBResult`) as `process_file`
consumes it. -/
structure SearchResult where
  title : String
  year : Option Int
  media_type : String
  score : ℚ
deriving Repr, DecidableEq

/-- The fields of `ParsedFilename` that `process_file` reads; `A` is the
type of the opaque `ai_data` payload. -/
structure Parsed (A : Type) where
  clean_title : String
  normalized_title : String
  year : Option Int
  season : Option Nat
  episode : Option Nat
  media_type : String
  folder_hint : String
  ai_data : A

/-- The injected collaborators of the loop: metadata providers, the link
mechanism and the fuzzy ratio.  `ε` is the type of raised exceptions. -/
structure Providers (ε : Type) where
  imdb_search_title : String → Option Int → Except ε (Option SearchResult)
  imdb_search_candidates : String → Option Int → Except ε (List SearchResult)
  imdb_search_show : String → Option Nat → Except ε (Option SearchResult)
  tmdb_search_movie : String → Option Int → Except ε (Option SearchResult)
  tmdb_search_show : String → Option Int → Except ε (Option SearchResult)
  create_link : Naming.SrcPath → List String → Except ε Bool
  ratio : String → String → ℚ

/-- The configuration fields the loop reads. -/
structure ProcConfig where
  roots : Naming.Roots
  allowed_extensions : List String

/-- `config.is_supported`: case-insensitive suffix allowlist. -/
def is_supported (cfg : ProcConfig) (p : Naming.SrcPath) : Bool :=
  cfg.allowed_extensions.contains ⟨p.suffix.data.map Char.toLower⟩

/-- One enumerated file: its path, resolved key, stat result (`none` when
the file vanished) and parsed filename. -/
structure FileEntry (A : Type) where
  path : Naming.SrcPath
  key : String
  mtime : Option ℚ
  parsed : Parsed A

/-- The sidecar JSON record written for an unmatched file. -/
structure Sidecar (A : Type) where
  path : List String
  file : List String
  ai : A
  imdb : Option SearchResult
  movie : Option SearchResult
  show_r : Option SearchResult
  similarity : Option Similarity.Verdict

/-- Everything observable about one `process_file` call: the state after
the call, the sidecar written (if any), the link attempt (destination and
reported success, if any) and the returned value. -/
structure Outcome (A : Type) where
  state : StateMap
  sidecar : Option (Sidecar A)
  linkAttempt : Option (List String × Bool)
  result : Option (List String)

/-- `str(path)` of a source file, as path components. -/
def srcRender (p : Naming.SrcPath) : List String := p.dir ++ [p.fileName]

/-- `search_query = parsed.clean_title or parsed.normalized_title or path.stem`. -/
def searchQuery {A : Type} (entry : FileEntry A) : String :=
  Naming.pyOrStr entry.parsed.clean_title
    (Naming.pyOrStr entry.parsed.normalized_title entry.path.stem)

/-- The IMDb lookup cascade of `process_file` (lines 81–89). -/
def imdbCascade {ε A : Type} (prov : Providers ε) (entry : FileEntry A) :
    Except ε (Option SearchResult) := do
  let parsed := entry.parsed
  let r1 ← prov.imdb_search_title (searchQuery entry) parsed.year
  let r2 ←
    if r1 = none ∧ parsed.normalized_title ≠ "" ∧
        parsed.normalized_title ≠ searchQuery entry then do
      let candidates ← prov.imdb_search_candidates parsed.normalized_title parsed.year
      pure candidates.head?
    else pure r1
  if r2 = none ∧ (parsed.media_type = "show" ∨ parsed.media_type = "anime") then
    prov.imdb_search_show
      (Naming.pyOrStr parsed.clean_title parsed.normalized_title) parsed.season
  else pure r2

/-- `imdb_match = imdb_result if imdb_result and imdb_result.score >= 70 else None`. -/
def imdbGate (imdb_result : Option SearchResult) : Option SearchResult :=
  match imdb_result with
  | some r => if (70 : ℚ) ≤ r.score then some r else none
  | none => none

/-- The TMDB fallback of `process_file` (lines 92–98), entered only when
there is no direct IMDb match. -/
def tmdbFallback {ε A : Type} (prov : Providers ε) (entry : FileEntry A)
    (imdb_match : Option SearchResult) :
    Except ε (Option SearchResult × Option SearchResult) := do
  if imdb_match = none then do
    let m ← prov.tmdb_search_movie (searchQuery entry) entry.parsed.year
    let show_query :=
      Naming.pyOrStr entry.parsed.clean_title
        (Naming.pyOrStr entry.parsed.normalized_title (searchQuery entry))
    let s ← prov.tmdb_search_show show_query entry.parsed.year
    pure (m, s)
  else pure (none, none)

/-- The best-candidate selection of `process_file` (lines 99–145). -/
def selectBest {A : Type} (ratio : String → String → ℚ) (entry : FileEntry A)
    (imdb_match movie_result show_result : Option SearchResult) :
    Option (SearchResult × String) × Option Similarity.Verdict :=
  let parsed := entry.parsed
  match imdb_match with
  | some r =>
    (some (r, r.media_type),
      some { score := r.score, accepted := true,
             warn := decide (r.score < 80), reason := "imdb_direct" })
  | none =>
    match movie_result, show_result with
    | some mr, some sr =>
      let sim_movie := Similarity.evaluate_match ratio (searchQuery entry)
        mr.title parsed.year mr.year none
      let sim_show := Similarity.evaluate_match ratio parsed.normalized_title
        sr.title parsed.year sr.year (some parsed.folder_hint)
      if sim_show.score ≤ sim_movie.score then
        (some (mr, "movie"), some sim_movie)
      else (some (sr, "show"), some sim_show)
    | some mr, none =>
      (some (mr, "movie"),
        some (Similarity.evaluate_match ratio (searchQuery entry) mr.title
          parsed.year mr.year none))
    | none, some sr =>
      (some (sr, "show"),
        some (Similarity.evaluate_match ratio parsed.normalized_title
          sr.title parsed.year sr.year (some parsed.folder_hint)))
    | none, none => (none, none)

/-- The sidecar record written by the unmatched branch (lines 147–165). -/
def unmatchedRecord {A : Type} (cfg : ProcConfig) (entry : FileEntry A)
    (imdb_result movie_result show_result : Option SearchResult)
    (similarity_info : Option Similarity.Verdict) : Sidecar A :=
  { path := cfg.roots.unmatched_dir ++ [entry.path.stem ++ ".json"]
    file := srcRender entry.path
    ai := entry.parsed.ai_data
    imdb := imdb_result
    movie := movie_result
    show_r := show_result
    similarity := similarity_info }

/-- The tail of `process_file` (lines 147–183): either write the sidecar,
or build the destination and attempt the link. -/
def finishDecision {ε A : Type} (prov : Providers ε) (cfg : ProcConfig)
    (entry : FileEntry A) (state : StateMap) (dry_run : Bool) (mtime : ℚ)
    (imdb_result movie_result show_result : Option SearchResult)
    (pick : Option (SearchResult × String) × Option Similarity.Verdict) :
    Except ε (Outcome A) :=
  let key := entry.key
  let unmatchedOutcome : Outcome A :=
    { state := state.set key mtime
      sidecar := some (unmatchedRecord cfg entry imdb_result movie_result
        show_result pick.2)
      linkAttempt := none
      result := none }
  match pick.1, pick.2 with
  | some (br, btype), some sim =>
    if sim.accepted then
      let candidate : Naming.MediaCandidate :=
        { media_type := btype, query := br.title, year_hint := br.year
          season := entry.parsed.season, episode := entry.parsed.episode }
      let plan := Naming.build_destination entry.path candidate
        { title := some br.title, year := br.year } cfg.roots
      if dry_run then
        pure { state := state.set key mtime, sidecar := none,
               linkAttempt := none, result := some plan.destination }
      else do
        let ok ← prov.create_link plan.source plan.destination
        pure { state := state.set key mtime, sidecar := none,
               linkAttempt := some (plan.destination, ok),
               result := some plan.destination }
    else
      pure unmatchedOutcome
  | _, _ =>
    pure unmatchedOutcome

/-- `processor.process_file`. -/
def process_file {ε A : Type} (prov : Providers ε) (cfg : ProcConfig)
    (entry : FileEntry A) (state : StateMap) (dry_run : Bool) :
    Except ε (Outcome A) :=
  match entry.mtime with
  | none =>
    pure { state := state, sidecar := none, linkAttempt := none, result := none }
  | some mtime =>
    if state entry.key = some mtime then
      pure { state := state, sidecar := none, linkAttempt := none, result := none }
    else if ¬ is_supported cfg entry.path then
      pure { state := state.set entry.key mtime, sidecar := none,
             linkAttempt := none, result := none }
    else do
      let imdb_result ← imdbCascade prov entry
      let imdb_match := imdbGate imdb_result
      let tmdbPair ← tmdbFallback prov entry imdb_match
      let pick := selectBest prov.ratio entry imdb_match tmdbPair.1 tmdbPair.2
      finishDecision prov cfg entry state dry_run mtime imdb_result
        tmdbPair.1 tmdbPair.2 pick

/-- One iteration of `process_once`'s loop: `process_file` guarded by the
per-file `try`/`except`. -/
def process_entry {ε A : Type} (prov : Providers ε) (cfg : ProcConfig)
    (dry_run : Bool) (state : StateMap) (entry : FileEntry A) :
    StateMap × Option (List String × Bool) :=
  match process_file prov cfg entry state dry_run with
  | .ok o => (o.state, o.linkAttempt)
  | .error _ => (state, none)

/-- `processor.process_once` over an enumerated list of files: the final
state and all link attempts, in order. -/
def process_once {ε A : Type} (prov : Providers ε) (cfg : ProcConfig)
    (dry_run : Bool) (entries : List (FileEntry A)) (state0 : StateMap) :
    StateMap × List (List String × Bool) :=
  match entries with
  | [] => (state0, [])
  | e :: rest =>
    let r := process_entry prov cfg dry_run state0 e
    let rr := process_once prov cfg dry_run rest r.1
    (rr.1, r.2.toList ++ rr.2)

end Processor

/-! ### Specification-side predicates and definitions -/

namespace Naming

/-- The result contains no filesystem-illegal characters. -/
def noIllegalChars (cs : List Char) : Prop := ∀ c ∈ cs, isIllegal c = false

/-- The result contains no two adjacent whitespace characters. -/
def noAdjacentWs (cs : List Char) : Prop :=
  List.Chain' (fun a b => ¬(isWs a = true ∧ isWs b = true)) cs

/-- The result neither starts nor ends with whitespace. -/
def trimmedWsEnds (cs : List Char) : Prop :=
  (∀ c, cs.head? = some c → isWs c = false) ∧
  (∀ c, cs.getLast? = some c → isWs c = false)

end Naming

namespace Cleaner

/-- The word boundary before index `i`, phrased over the whole input:
index `0`, or a non-word character at index `i - 1`. -/
def boundaryBefore (cs : List Char) : Nat → Bool
  | 0 => true
  | j + 1 =>
    match cs.get? j with
    | some p => !isWordChar p
    | none => false

/-- The year token the specification describes, at index `i`: four digits
whose value lies in `[lo, hi]`, delimited by word boundaries. -/
def specYearAt (lo hi : Nat) (cs : List Char) (i : Nat) : Option Nat :=
  match cs.drop i with
  | d1 :: d2 :: d3 :: d4 :: rest =>
    let n := 1000 * digVal d1 + 100 * digVal d2 + 10 * digVal d3 + digVal d4
    if isDig d1 && isDig d2 && isDig d3 && isDig d4 &&
        boundaryBefore cs i && boundaryAfterTok rest &&
        decide (lo ≤ n) && decide (n ≤ hi) then
      some n
    else none
  | _ => none

/-- The year extractor the specification describes: the value of the
first (leftmost) boundary-delimited four-digit token in `[lo, hi]`. -/
def specFirstYear (lo hi : Nat) (cs : List Char) : Option Nat :=
  (((List.range cs.length).filterMap
      (fun i => (specYearAt lo hi cs i).map (fun y => (i, y)))).head?).map Prod.snd

end Cleaner

/-! ### Concrete fixtures used by witnesses and counterexamples -/

namespace Fixtures

open Processor

/-- A high-score direct IMDb hit. -/
def hitResult : SearchResult :=
  { title := "Dune", year := some 2021, media_type := "movie", score := 95 }

/-- Providers whose IMDb lookup hits directly and whose link creation
fails (both mechanisms), never raising. -/
def provLinkFail : Providers Empty :=
  { imdb_search_title := fun _ _ => .ok (some hitResult)
    imdb_search_candidates := fun _ _ => .ok []
    imdb_search_show := fun _ _ => .ok none
    tmdb_search_movie := fun _ _ => .ok none
    tmdb_search_show := fun _ _ => .ok none
    create_link := fun _ _ => .ok false
    ratio := fun _ _ => 0 }

/-- Providers that never find anything and never raise; links succeed. -/
def provNone : Providers Empty :=
  { imdb_search_title := fun _ _ => .ok none
    imdb_search_candidates := fun _ _ => .ok []
    imdb_search_show := fun _ _ => .ok none
    tmdb_search_movie := fun _ _ => .ok none
    tmdb_search_show := fun _ _ => .ok none
    create_link := fun _ _ => .ok true
    ratio := fun _ _ => 0 }

/-- Providers like `provLinkFail` but with a working link mechanism. -/
def provLinkOk : Providers Empty :=
  { provLinkFail with create_link := fun _ _ => .ok true }

/-- A small configuration. -/
def cfg0 : ProcConfig :=
  { roots := { movies_dir := ["m"], shows_dir := ["s"], unmatched_dir := ["u"] }
    allowed_extensions := [".mkv"] }

/-- One enumerated file. -/
def entry0 : FileEntry Unit :=
  { path := { dir := ["src"], stem := "Dune.2021", suffix := ".mkv" }
    key := "k"
    mtime := some 1
    parsed :=
      { clean_title := "Dune", normalized_title := "Dune", year := some 2021
        season := none, episode := none, media_type := "movie"
        folder_hint := "", ai_data := () } }

/-- The empty scan state. -/
def state0 : StateMap := fun _ => none

/-- A file system holding one unrelated regular file. -/
def fs0 : Symlink.FS := [("r/Name.ext".data, Symlink.Entry.file)]

/-- A source path for links. -/
def src0 : Symlink.FName := "s/F.ext".data

/-- A destination that collides with the unrelated file in `fs0`. -/
def dest0 : Symlink.DPath := ⟨"r".data, "Name".data, ".ext".data⟩

end Fixtures

/-! ## Theorems -/

/-! ### Decimal rendering -/

theorem digVal_digitChar {n : Nat} (h : n < 10) : digVal (Nat.digitChar n) = n := by
  interval_cases n <;> rfl

theorem decodeDigits_append (cs : List Char) (c : Char) :
    decodeDigits (cs ++ [c]) = decodeDigits cs * 10 + digVal c := by
  simp [decodeDigits, List.foldl_append]

theorem decodeDigits_natStrAux : ∀ fuel n, n < fuel →
    decodeDigits (natStrAux fuel n) = n := by
  intro fuel
  induction fuel with
  | zero => intro n h; omega
  | succ fuel ih =>
    intro n h
    by_cases hn : n < 10
    · simp [natStrAux, hn, decodeDigits, digVal_digitChar hn]
    · have hdiv : n / 10 < n := Nat.div_lt_self (by omega) (by omega)
      have : n / 10 < fuel := by omega
      simp only [natStrAux, if_neg hn]
      rw [decodeDigits_append, ih _ this,
        digVal_digitChar (Nat.mod_lt n (by omega))]
      omega

theorem decodeDigits_natStr (n : Nat) : decodeDigits (natStr n) = n :=
  decodeDigits_natStrAux _ _ (Nat.lt_succ_self n)

theorem natStr_injective : Function.Injective natStr := by
  intro m n h
  have := decodeDigits_natStr m
  rw [h, decodeDigits_natStr] at this
  omega

theorem length_dropWhile_le (p : Char → Bool) (l : List Char) :
    (l.dropWhile p).length ≤ l.length := by
  induction l with
  | nil => simp [List.dropWhile]
  | cons c rest ih =>
    rw [List.dropWhile]
    cases p c <;> simp <;> omega

/-! ### `filename_cleaner._extract_year` -/

namespace Cleaner

theorem findYearAux_eq_some_iff (cs : List Char) : ∀ (prev : Option Char) (y : Nat),
    findYearAux prev cs = some y ↔
      ∃ i, yearTokenAtAux prev cs i = some y ∧
        ∀ j, j < i → yearTokenAtAux prev cs j = none := by
  induction cs with
  | nil =>
    intro prev y
    constructor
    · intro h; simp [findYearAux] at h
    · rintro ⟨i, hi, -⟩
      cases i <;> simp [yearTokenAtAux, matchYearHere] at hi
  | cons c rest ih =>
    intro prev y
    constructor
    · intro h
      rw [findYearAux] at h
      cases hm : matchYearHere prev (c :: rest) with
      | some z =>
        rw [hm] at h
        refine ⟨0, ?_, by omega⟩
        simpa [yearTokenAtAux, hm] using h
      | none =>
        rw [hm] at h
        obtain ⟨i, hi, hmin⟩ := (ih (some c) y).mp h
        refine ⟨i + 1, by simpa [yearTokenAtAux] using hi, ?_⟩
        intro j hj
        cases j with
        | zero => simpa [yearTokenAtAux] using hm
        | succ j => simpa [yearTokenAtAux] using hmin j (by omega)
    · rintro ⟨i, hi, hmin⟩
      rw [findYearAux]
      cases hm : matchYearHere prev (c :: rest) with
      | some z =>
        cases i with
        | zero =>
          simp only [yearTokenAtAux] at hi
          rw [hm] at hi; exact hi
        | succ i =>
          have := hmin 0 (by omega)
          simp only [yearTokenAtAux] at this
          rw [hm] at this; exact absurd this (by simp)
      | none =>
        cases i with
        | zero =>
          simp only [yearTokenAtAux] at hi
          rw [hm] at hi; exact absurd hi (by simp)
        | succ i =>
          refine (ih (some c) y).mpr ⟨i, by simpa [yearTokenAtAux] using hi, ?_⟩
          intro j hj
          simpa [yearTokenAtAux] using hmin (j + 1) (by omega)

theorem extractYear_eq_some_iff (cs : List Char) (y : Nat) :
    extractYear cs = some y ↔
      ∃ i, yearTokenAt cs i = some y ∧ ∀ j, j < i → yearTokenAt cs j = none :=
  findYearAux_eq_some_iff cs none y

theorem digVal_le_of_isDig {c : Char} (h : isDig c = true) : digVal c ≤ 9 := by
  simp only [isDig, Bool.and_eq_true, decide_eq_true_eq] at h
  simp only [digVal]
  omega

theorem matchYearHere_range {prev : Option Char} {cs : List Char} {y : Nat}
    (h : matchYearHere prev cs = some y) : 1900 ≤ y ∧ y ≤ 2099 := by
  rcases cs with _ | ⟨d1, _ | ⟨d2, _ | ⟨d3, _ | ⟨d4, rest⟩⟩⟩⟩ <;>
    simp only [matchYearHere] at h <;>
    try exact Option.noConfusion h
  split at h
  · rename_i hcond
    have hy : y = 1000 * digVal d1 + 100 * digVal d2 + 10 * digVal d3 + digVal d4 :=
      (Option.some.inj h).symm
    simp only [Bool.and_eq_true, Bool.or_eq_true, decide_eq_true_eq] at hcond
    obtain ⟨⟨⟨⟨-, h1920⟩, h3⟩, h4⟩, -⟩ := hcond
    have e3 := digVal_le_of_isDig h3
    have e4 := digVal_le_of_isDig h4
    have v1 : digVal '1' = 1 := by decide
    have v9 : digVal '9' = 9 := by decide
    have v2 : digVal '2' = 2 := by decide
    have v0 : digVal '0' = 0 := by decide
    rcases h1920 with ⟨h1, h2⟩ | ⟨h1, h2⟩ <;> subst h1 h2 <;>
      simp only [hy, v1, v9, v2, v0] <;> omega
  · exact absurd h (by simp)

end Cleaner

/-! ### C7 — year extraction -/

theorem char_eq_of_toNat_eq {a b : Char} (h : a.toNat = b.toNat) : a = b :=
  Char.ext (UInt32.ext h)

namespace Cleaner

theorem yearTokenAtAux_eq_matchYearHere :
    ∀ (cs : List Char) (prev : Option Char) (i : Nat),
      yearTokenAtAux prev cs i =
        matchYearHere (prevCharAtFrom prev cs i) (cs.drop i) := by
  intro cs
  induction cs with
  | nil =>
    intro prev i
    cases i with
    | zero => rfl
    | succ j => rfl
  | cons c rest ih =>
    intro prev i
    cases i with
    | zero => rfl
    | succ j =>
      rw [show yearTokenAtAux prev (c :: rest) (j + 1) =
        yearTokenAtAux (some c) rest j from rfl, ih (some c) j]
      cases j <;> rfl

theorem prevOk_eq (cs : List Char) (i : Nat) (h : i < cs.length) :
    boundaryOkPrev (prevCharAtFrom none cs i) = boundaryBefore cs i := by
  cases i with
  | zero => rfl
  | succ j =>
    obtain ⟨p, hp⟩ : ∃ p, cs.get? j = some p := by
      have hj : j < cs.length := by omega
      exact ⟨cs.get ⟨j, hj⟩, List.get?_eq_get hj⟩
    show boundaryOkPrev (cs.get? j) =
      (match cs.get? j with | some p => !isWordChar p | none => false)
    rw [hp]
    rfl

theorem isDig_digVal_char {c : Char} {k : Nat} (hk : k < 10)
    (hc : isDig c = true) (h : digVal c = k) : c = Nat.digitChar k := by
  simp only [isDig, Bool.and_eq_true, decide_eq_true_eq] at hc
  simp only [digVal] at h
  have htn : c.toNat = 48 + k := by omega
  apply char_eq_of_toNat_eq
  rw [htn]
  interval_cases k <;> rfl

theorem nineteenTwenty_iff (d1 d2 d3 d4 : Char) :
    ((((d1 = '1' && d2 = '9') || (d1 = '2' && d2 = '0')) &&
        isDig d3 && isDig d4) = true) ↔
    ((isDig d1 && isDig d2 && isDig d3 && isDig d4) = true ∧
      1900 ≤ 1000 * digVal d1 + 100 * digVal d2 + 10 * digVal d3 + digVal d4 ∧
      1000 * digVal d1 + 100 * digVal d2 + 10 * digVal d3 + digVal d4 ≤ 2099) := by
  simp only [Bool.and_eq_true, Bool.or_eq_true, decide_eq_true_eq]
  have e1 : digVal '1' = 1 := by decide
  have e9 : digVal '9' = 9 := by decide
  have e2 : digVal '2' = 2 := by decide
  have e0 : digVal '0' = 0 := by decide
  constructor
  · rintro ⟨⟨h1920, h3⟩, h4⟩
    have b3 := digVal_le_of_isDig h3
    have b4 := digVal_le_of_isDig h4
    rcases h1920 with ⟨rfl, rfl⟩ | ⟨rfl, rfl⟩
    · exact ⟨⟨⟨⟨by decide, by decide⟩, h3⟩, h4⟩,
        by simp only [e1, e9]; omega, by simp only [e1, e9]; omega⟩
    · exact ⟨⟨⟨⟨by decide, by decide⟩, h3⟩, h4⟩,
        by simp only [e2, e0]; omega, by simp only [e2, e0]; omega⟩
  · rintro ⟨⟨⟨⟨h1, h2⟩, h3⟩, h4⟩, hlo, hhi⟩
    have b1 := digVal_le_of_isDig h1
    have b2 := digVal_le_of_isDig h2
    have b3 := digVal_le_of_isDig h3
    have b4 := digVal_le_of_isDig h4
    refine ⟨⟨?_, h3⟩, h4⟩
    have hpair : (digVal d1 = 1 ∧ digVal d2 = 9) ∨ (digVal d1 = 2 ∧ digVal d2 = 0) := by
      omega
    rcases hpair with ⟨ha, hb⟩ | ⟨ha, hb⟩
    · left
      exact ⟨isDig_digVal_char (by omega) h1 ha,
             isDig_digVal_char (by omega) h2 hb⟩
    · right
      exact ⟨isDig_digVal_char (by omega) h1 ha,
             isDig_digVal_char (by omega) h2 hb⟩

theorem yearCond_equiv (cs : List Char) (i : Nat) (hlen : i < cs.length)
    (d1 d2 d3 d4 : Char) (rest : List Char) :
    ((boundaryOkPrev (prevCharAtFrom none cs i) &&
       ((d1 = '1' && d2 = '9') || (d1 = '2' && d2 = '0')) &&
       isDig d3 && isDig d4 && boundaryAfterTok rest) = true) ↔
    ((isDig d1 && isDig d2 && isDig d3 && isDig d4 &&
       boundaryBefore cs i && boundaryAfterTok rest &&
       decide (1900 ≤ 1000 * digVal d1 + 100 * digVal d2 + 10 * digVal d3 + digVal d4) &&
       decide (1000 * digVal d1 + 100 * digVal d2 + 10 * digVal d3 + digVal d4 ≤ 2099)) =
      true) := by
  rw [prevOk_eq cs i hlen]
  have hdig := nineteenTwenty_iff d1 d2 d3 d4
  simp only [Bool.and_eq_true, Bool.or_eq_true, decide_eq_true_eq] at hdig ⊢
  constructor
  · rintro ⟨⟨⟨⟨hprev, h1920⟩, h3⟩, h4⟩, hafter⟩
    obtain ⟨hall, hlo, hhi⟩ := hdig.mp ⟨⟨h1920, h3⟩, h4⟩
    exact ⟨⟨⟨⟨⟨⟨⟨hall.1.1.1, hall.1.1.2⟩, h3⟩, h4⟩, hprev⟩, hafter⟩, hlo⟩, hhi⟩
  · rintro ⟨⟨⟨⟨⟨⟨⟨hd1, hd2⟩, hd3⟩, hd4⟩, hprev⟩, hafter⟩, hlo⟩, hhi⟩
    obtain ⟨⟨h1920, -⟩, -⟩ := hdig.mpr ⟨⟨⟨⟨hd1, hd2⟩, hd3⟩, hd4⟩, hlo, hhi⟩
    exact ⟨⟨⟨⟨hprev, h1920⟩, hd3⟩, hd4⟩, hafter⟩

theorem matchYearHere_eq_specYearAt (cs : List Char) (i : Nat) :
    matchYearHere (prevCharAtFrom none cs i) (cs.drop i) =
      specYearAt 1900 2099 cs i := by
  rcases hd : cs.drop i with _ | ⟨d1, _ | ⟨d2, _ | ⟨d3, _ | ⟨d4, rest⟩⟩⟩⟩ <;>
    simp only [specYearAt, matchYearHere, hd]
  have hlen : i < cs.length := by
    by_contra hle
    push_neg at hle
    rw [List.drop_eq_nil_of_le hle] at hd
    cases hd
  have hequiv := yearCond_equiv cs i hlen d1 d2 d3 d4 rest
  split <;> split <;> first
    | rfl
    | (rename_i h1 h2
       exact absurd (hequiv.mp h1) h2)
    | (rename_i h1 h2
       exact absurd (hequiv.mpr h2) h1)

end Cleaner

namespace Cleaner

theorem head_filterMapIdx_range'_fwd {α : Type} (f : Nat → Option α) :
    ∀ (n s i : Nat) (y : α), s ≤ i → i < s + n → f i = some y →
      (∀ j, s ≤ j → j < i → f j = none) →
      ((List.range' s n).filterMap
        (fun j => (f j).map (fun v => (j, v)))).head? = some (i, y) := by
  intro n
  induction n with
  | zero => intro s i y h1 h2; omega
  | succ n ih =>
    intro s i y h1 h2 hy hmin
    rw [List.range'_succ, List.filterMap_cons]
    rcases Nat.eq_or_lt_of_le h1 with rfl | hlt
    · rw [hy]
      rfl
    · rw [hmin s (Nat.le_refl s) hlt]
      exact ih (s + 1) i y hlt (by omega) hy
        (fun j hj1 hj2 => hmin j (by omega) hj2)

theorem head_filterMapIdx_range'_inv {α : Type} (f : Nat → Option α) :
    ∀ (n s i : Nat) (y : α),
      ((List.range' s n).filterMap
        (fun j => (f j).map (fun v => (j, v)))).head? = some (i, y) →
      f i = some y ∧ s ≤ i ∧ ∀ j, s ≤ j → j < i → f j = none := by
  intro n
  induction n with
  | zero =>
    intro s i y h
    simp [List.range'] at h
  | succ n ih =>
    intro s i y h
    rw [List.range'_succ, List.filterMap_cons] at h
    cases hs : f s with
    | some v =>
      rw [hs] at h
      simp only [Option.map_some', List.head?_cons, Option.some.injEq] at h
      obtain ⟨rfl, rfl⟩ := Prod.mk.injEq .. ▸ h
      exact ⟨hs, Nat.le_refl _, fun j hj1 hj2 => by omega⟩
    | none =>
      rw [hs] at h
      simp only [Option.map_none'] at h
      obtain ⟨hy, hsi, hmin⟩ := ih (s + 1) i y h
      refine ⟨hy, by omega, ?_⟩
      intro j hj1 hj2
      rcases Nat.eq_or_lt_of_le hj1 with rfl | hlt
      · exact hs
      · exact hmin j hlt hj2

theorem specYearAt_some_lt {lo hi : Nat} {cs : List Char} {i : Nat} {y : Nat}
    (h : specYearAt lo hi cs i = some y) : i < cs.length := by
  by_contra hle
  push_neg at hle
  rw [specYearAt, List.drop_eq_nil_of_le hle] at h
  cases h

theorem specFirstYear_eq_some_iff (lo hi : Nat) (cs : List Char) (y : Nat) :
    specFirstYear lo hi cs = some y ↔
      ∃ i, specYearAt lo hi cs i = some y ∧
        ∀ j, j < i → specYearAt lo hi cs j = none := by
  constructor
  · intro h
    rw [specFirstYear, Option.map_eq_some'] at h
    obtain ⟨⟨i, y'⟩, hhead, hy'⟩ := h
    rw [List.range_eq_range'] at hhead
    obtain ⟨hf, -, hmin⟩ := head_filterMapIdx_range'_inv
      (specYearAt lo hi cs) cs.length 0 i y' hhead
    cases hy'
    exact ⟨i, hf, fun j hj => hmin j (Nat.zero_le j) hj⟩
  · rintro ⟨i, hyi, hmin⟩
    rw [specFirstYear, List.range_eq_range']
    rw [head_filterMapIdx_range'_fwd (specYearAt lo hi cs) cs.length 0 i y
      (Nat.zero_le i) (by simpa using specYearAt_some_lt hyi) hyi
      (fun j _ hj => hmin j hj)]
    rfl

theorem yearTokenAt_eq_specYearAt (cs : List Char) (i : Nat) :
    yearTokenAt cs i = specYearAt 1900 2099 cs i := by
  rw [yearTokenAt, yearTokenAtAux_eq_matchYearHere, matchYearHere_eq_specYearAt]

end Cleaner

/-- C7 counterexample: `"Movie.2150.mkv"` contains the boundary-delimited
four-digit token `2150`, which lies in the claimed range `[1900, 2199]`,
yet `_extract_year` returns nothing — its regex `(19|20)\d{2}` only
matches years up to 2099. -/
theorem C7_counterexample :
    Cleaner.specFirstYear 1900 2199 "Movie.2150.mkv".data = some 2150 ∧
    Cleaner.extractYear "Movie.2150.mkv".data = none := by
  exact ⟨rfl, rfl⟩

/-- C7 (amended): for every input, `_extract_year` returns exactly the
first boundary-delimited four-digit token whose value lies in
`[1900, 2099]` (the regex `(19|20)\d{2}` with `\b` boundaries), and
returns nothing when no such token is present. -/
theorem C7_amended_first_year (cs : List Char) :
    Cleaner.extractYear cs = Cleaner.specFirstYear 1900 2099 cs := by
  cases h : Cleaner.extractYear cs with
  | some y =>
    obtain ⟨i, hi, hmin⟩ := (Cleaner.extractYear_eq_some_iff cs y).mp h
    rw [Cleaner.yearTokenAt_eq_specYearAt] at hi
    exact ((Cleaner.specFirstYear_eq_some_iff 1900 2099 cs y).mpr
      ⟨i, hi, fun j hj => (Cleaner.yearTokenAt_eq_specYearAt cs j) ▸ hmin j hj⟩).symm
  | none =>
    cases hs : Cleaner.specFirstYear 1900 2099 cs with
    | none => rfl
    | some z =>
      obtain ⟨i, hi, hmin⟩ :=
        (Cleaner.specFirstYear_eq_some_iff 1900 2099 cs z).mp hs
      rw [← Cleaner.yearTokenAt_eq_specYearAt] at hi
      have := (Cleaner.extractYear_eq_some_iff cs z).mpr
        ⟨i, hi, fun j hj => by
          rw [Cleaner.yearTokenAt_eq_specYearAt]
          exact (Cleaner.yearTokenAt_eq_specYearAt cs j) ▸ hmin j hj⟩
      rw [h] at this
      cases this

/-! ### C3 — the similarity verdict policy -/

namespace Similarity

theorem evaluate_match_score (ratio : String → String → ℚ) (q c : String)
    (qy cy : Option Int) (fh : Option String) :
    (evaluate_match ratio q c qy cy fh).score =
      similarity_score ratio q c (yearMatch qy cy)
        (sxxMatch (extractSxxExx q) (extractSxxExx c))
        (folderContextMatch fh c) := by
  simp only [evaluate_match]
  split
  · rfl
  · split <;> rfl

theorem yearMatch_iff (qy cy : Option Int)
    (hq : ∀ y, qy = some y → y ≠ 0) (hc : ∀ y, cy = some y → y ≠ 0) :
    yearMatch qy cy = true ↔ ∃ y, qy = some y ∧ cy = some y := by
  cases qy with
  | none => simp [yearMatch]
  | some a =>
    cases cy with
    | none => simp [yearMatch]
    | some b =>
      have ha := hq a rfl
      have hb := hc b rfl
      simp only [yearMatch, Bool.and_eq_true, bne_iff_ne, beq_iff_eq]
      constructor
      · rintro ⟨⟨-, -⟩, rfl⟩
        exact ⟨a, rfl, rfl⟩
      · rintro ⟨y, hy1, hy2⟩
        cases hy1; cases hy2
        exact ⟨⟨ha, hb⟩, rfl⟩

end Similarity

/-- C3: for every query/candidate pair (the fuzzy ratio abstracted as a
parameter, and supplied years being genuine nonzero years, as the
extractors produce), the verdict is: score ≥ 90 ⇒ accepted with reason
`strict_accept` (the code's spelling of `StrictAccept`); 80 ≤ score < 90
with equal supplied years ⇒ accepted with `warn` and reason
`loose_accept_year_match`; otherwise rejected. -/
theorem C3_verdict_policy (ratio : String → String → ℚ) (q c : String)
    (qy cy : Option Int) (fh : Option String)
    (hq : ∀ y, qy = some y → y ≠ 0) (hc : ∀ y, cy = some y → y ≠ 0) :
    ((Similarity.evaluate_match ratio q c qy cy fh).score ≥ 90 →
      (Similarity.evaluate_match ratio q c qy cy fh).accepted = true ∧
      (Similarity.evaluate_match ratio q c qy cy fh).warn = false ∧
      (Similarity.evaluate_match ratio q c qy cy fh).reason = "strict_accept") ∧
    ((Similarity.evaluate_match ratio q c qy cy fh).score < 90 ∧
      80 ≤ (Similarity.evaluate_match ratio q c qy cy fh).score ∧
      (∃ y, qy = some y ∧ cy = some y) →
      (Similarity.evaluate_match ratio q c qy cy fh).accepted = true ∧
      (Similarity.evaluate_match ratio q c qy cy fh).warn = true ∧
      (Similarity.evaluate_match ratio q c qy cy fh).reason = "loose_accept_year_match") ∧
    ((Similarity.evaluate_match ratio q c qy cy fh).score < 90 ∧
      ¬(80 ≤ (Similarity.evaluate_match ratio q c qy cy fh).score ∧
        ∃ y, qy = some y ∧ cy = some y) →
      (Similarity.evaluate_match ratio q c qy cy fh).accepted = false) := by
  have hym := Similarity.yearMatch_iff qy cy hq hc
  simp only [Similarity.evaluate_match, Similarity.THRESHOLD_STRICT,
    Similarity.THRESHOLD_LOOSE]
  split
  · rename_i h90
    refine ⟨fun _ => ⟨rfl, rfl, rfl⟩, fun h => absurd h90 (by push_neg; exact h.1), ?_⟩
    rintro ⟨hlt, -⟩
    exact absurd h90 (by push_neg; exact hlt)
  · rename_i h90
    split
    · rename_i h80
      refine ⟨fun h => absurd h (by simpa using h90), fun _ => ⟨rfl, rfl, rfl⟩, ?_⟩
      rintro ⟨-, hno⟩
      exact absurd ⟨h80.1, hym.mp h80.2⟩ hno
    · rename_i h80
      refine ⟨fun h => absurd h (by simpa using h90), ?_, fun _ => rfl⟩
      rintro ⟨-, hsc, hy⟩
      exact absurd ⟨hsc, hym.mpr hy⟩ h80

/-- Witness for C3 at a concrete input: base ratio 85 with matching years
1999 gives score 95 and a strict accept. -/
theorem C3_verdict_policy_witness :
    (Similarity.evaluate_match (fun _ _ => 85) "a" "b" (some 1999) (some 1999)
        none).score ≥ 90 ∧
    (Similarity.evaluate_match (fun _ _ => 85) "a" "b" (some 1999) (some 1999)
        none).accepted = true := by
  have h := C3_verdict_policy (fun _ _ => 85) "a" "b" (some 1999) (some 1999) none
    (fun y hy => by cases hy; decide) (fun y hy => by cases hy; decide)
  have hv : (Similarity.evaluate_match (fun _ _ => (85 : ℚ)) "a" "b" (some 1999)
      (some 1999) none).score = 95 := by
    rw [Similarity.evaluate_match_score]
    have hym : Similarity.yearMatch (some 1999) (some 1999) = true := by decide
    have hsx : Similarity.sxxMatch (Similarity.extractSxxExx "a")
        (Similarity.extractSxxExx "b") = false := by decide
    have hf : Similarity.folderContextMatch none "b" = false := rfl
    rw [hym, hsx, hf]
    simp only [Similarity.similarity_score]
    norm_num
  have hsc : (Similarity.evaluate_match (fun _ _ => (85 : ℚ)) "a" "b" (some 1999)
      (some 1999) none).score ≥ 90 := by rw [hv]; norm_num
  exact ⟨hsc, (h.1 hsc).1⟩

/-! ### C4 — Show/Anime destination format -/

/-- C4 counterexample: a show candidate with a determined season but an
undetermined episode gets no `SxxEyy` tag at all — the episode does not
default to 1 as the claim states, so the planned file name is
`Show Name.mkv`, not `Show Name - S02E01.mkv`. -/
theorem C4_counterexample :
    (Naming.build_destination ⟨["src"], "x", ".mkv"⟩
        { media_type := "show", query := "Show Name", year_hint := none,
          season := some 2, episode := none }
        { title := some "Show Name", year := none }
        { movies_dir := ["movies"], shows_dir := ["shows"],
          unmatched_dir := ["unm"] }).destination =
      ["shows", "Show Name", "Season 02", "Show Name.mkv"] ∧
    (["shows", "Show Name", "Season 02", "Show Name.mkv"] : List String) ≠
      ["shows", "Show Name", "Season 02", "Show Name - S02E01.mkv"] := by
  exact ⟨rfl, by decide⟩

/-- C4 (amended): for every accepted Show/Anime candidate (provider title
truthy), the planned destination is
`{showsRoot}/{SafeTitle}( (Year))?/Season {NN}/{SafeTitle}( - S{NN}E{NN})?{ext}`,
where the season directory defaults to `Season 01` when the season is
undetermined (or zero), and the ` - SxxEyy` tag is present exactly when
both season and episode are determined — an undetermined episode is
omitted, never defaulted to 1. -/
theorem C4_amended_format (src : Naming.SrcPath) (cand : Naming.MediaCandidate)
    (t : Naming.ProviderData) (cfg : Naming.Roots)
    (hshow : cand.media_type = "show" ∨ cand.media_type = "anime")
    (htitle : Naming.truthyStr t.title = true) :
    (Naming.build_destination src cand t cfg).destination =
      cfg.shows_dir ++
        [Naming.withYear
            (Naming.safeComponentStr (Naming.pyOrOptStr t.title
              (Naming.pyOrStr cand.query src.stem)))
            (Naming.pyOrInt t.year cand.year_hint),
          Naming.formatSeason cand.season,
          (if Naming.formatEpisode cand.season cand.episode ≠ "" then
              Naming.safeComponentStr (Naming.pyOrOptStr t.title
                (Naming.pyOrStr cand.query src.stem)) ++ " - " ++
                Naming.formatEpisode cand.season cand.episode
            else
              Naming.safeComponentStr (Naming.pyOrOptStr t.title
                (Naming.pyOrStr cand.query src.stem))) ++ src.suffix] ∧
    (cand.episode = none →
      Naming.formatEpisode cand.season cand.episode = "") := by
  constructor
  · have hmovie : cand.media_type ≠ "movie" := by
      rcases hshow with h | h <;> rw [h] <;> decide
    rw [Naming.build_destination]
    rw [if_neg (by simp [htitle])]
    rw [if_neg hmovie]
    rw [if_pos hshow]
  · intro he
    rw [he]
    cases cand.season <;> rfl

/-- Witness for C4 at the specification's own example: season 2,
episode 5. -/
theorem C4_amended_format_witness :
    (Naming.build_destination ⟨["src"], "Show.Name.S02E05.WEBRip", ".mkv"⟩
        { media_type := "show", query := "Show Name", year_hint := none,
          season := some 2, episode := some 5 }
        { title := some "Show Name", year := none }
        { movies_dir := ["movies"], shows_dir := ["shows"],
          unmatched_dir := ["unm"] }).destination =
      ["shows", "Show Name", "Season 02", "Show Name - S02E05.mkv"] :=
  (C4_amended_format ⟨["src"], "Show.Name.S02E05.WEBRip", ".mkv"⟩
    { media_type := "show", query := "Show Name", year_hint := none,
      season := some 2, episode := some 5 }
    { title := some "Show Name", year := none }
    { movies_dir := ["movies"], shows_dir := ["shows"], unmatched_dir := ["unm"] }
    (Or.inl rfl) rfl).1.trans (by decide)

/-! ### C10 — `load_state` totality and filtering -/

/-- C10 counterexample: a JSON boolean is not numeric, yet `load_state`
retains it (Python `bool` is a subclass of `int`), coercing `true` to
`1.0` instead of dropping the entry. -/
theorem C10_counterexample :
    StateStore.load_state (.parsed (.obj [("a", .jbool true)])) = [("a", 1)] ∧
    ([("a", (1 : ℚ))] : List (String × ℚ)) ≠ [] := by
  exact ⟨rfl, by decide⟩

/-- C10 (amended): `load_state` is total; a missing file, a failed read
or parse, and a non-object top level all yield the empty mapping; an
entry of an object is retained exactly when its value is a JSON number or
a JSON boolean (booleans are Python ints: `true ↦ 1.0`, `false ↦ 0.0`),
and every retained key maps to that rational value. -/
theorem C10_amended :
    (∀ input : StateStore.FileRead,
      (∀ fields, input ≠ .parsed (.obj fields)) →
      StateStore.load_state input = []) ∧
    (∀ (fields : List (String × StateStore.JValue)) (k : String) (q : ℚ),
      (k, q) ∈ StateStore.load_state (.parsed (.obj fields)) ↔
        ∃ v, (k, v) ∈ fields ∧
          (v = .num q ∨ (v = .jbool true ∧ q = 1) ∨ (v = .jbool false ∧ q = 0))) := by
  constructor
  · intro input h
    cases input with
    | missing => rfl
    | unreadable => rfl
    | parseFailed => rfl
    | parsed v =>
      cases v with
      | obj fields => exact absurd rfl (h fields)
      | null => rfl
      | jbool b => rfl
      | num q => rfl
      | str s => rfl
      | arr xs => rfl
  · intro fields k q
    simp only [StateStore.load_state, List.mem_filterMap]
    constructor
    · rintro ⟨⟨k', v⟩, hmem, hmap⟩
      rw [Option.map_eq_some'] at hmap
      obtain ⟨q', hq', heq⟩ := hmap
      obtain ⟨hk, hqq⟩ := Prod.mk.injEq .. ▸ heq
      refine ⟨v, by rwa [← hk], ?_⟩
      cases v with
      | num r =>
        left
        simp only [StateStore.numValue, Option.some.injEq] at hq'
        rw [hq', hqq]
      | jbool b =>
        cases b with
        | true =>
          right; left
          simp only [StateStore.numValue, Option.some.injEq] at hq'
          exact ⟨rfl, by rw [← hqq, ← hq']; simp⟩
        | false =>
          right; right
          simp only [StateStore.numValue, Option.some.injEq] at hq'
          exact ⟨rfl, by rw [← hqq, ← hq']; simp⟩
      | null => simp [StateStore.numValue] at hq'
      | str s => simp [StateStore.numValue] at hq'
      | arr xs => simp [StateStore.numValue] at hq'
      | obj fs => simp [StateStore.numValue] at hq'
    · rintro ⟨v, hmem, rfl | ⟨rfl, rfl⟩ | ⟨rfl, rfl⟩⟩ <;>
        exact ⟨(k, _), hmem, rfl⟩

/-- Witness for C10 at concrete inputs: a missing file loads as the empty
mapping, and a numeric entry is retained. -/
theorem C10_amended_witness :
    StateStore.load_state .missing = [] ∧
    ("b", (5 : ℚ) / 2) ∈
      StateStore.load_state (.parsed (.obj [("b", .num ((5 : ℚ) / 2))])) := by
  constructor
  · exact C10_amended.1 .missing (fun fields h => by cases h)
  · exact (C10_amended.2 [("b", .num ((5 : ℚ) / 2))] "b" ((5 : ℚ) / 2)).mpr
      ⟨.num ((5 : ℚ) / 2), List.mem_singleton.mpr rfl, Or.inl rfl⟩

/-! ### C9 — `_safe_component` sanitization -/

namespace Naming

theorem collapseGo_mem : ∀ (l : List Char) (pending : Option (Char × Bool))
    (c : Char), c ∈ collapseGo pending l →
    c = ' ' ∨ c ∈ l ∨ ∃ b, pending = some (c, b) := by
  intro l
  induction l with
  | nil =>
    rintro (_ | ⟨p, _ | _⟩) c h <;> simp only [collapseGo] at h
    · exact absurd h (List.not_mem_nil c)
    · rcases List.mem_singleton.mp h with rfl
      exact Or.inr (Or.inr ⟨false, rfl⟩)
    · rcases List.mem_singleton.mp h with rfl
      exact Or.inl rfl
  | cons x rest ih =>
    rintro (_ | ⟨p, _ | _⟩) c h <;> rw [collapseGo] at h <;> by_cases hx : isWs x
    · rw [if_pos hx] at h
      rcases ih _ c h with h' | h' | ⟨b', hb⟩
      · exact Or.inl h'
      · exact Or.inr (Or.inl (List.mem_cons_of_mem _ h'))
      · cases hb
        exact Or.inr (Or.inl (List.mem_cons_self _ _))
    · rw [if_neg hx] at h
      rcases List.mem_cons.mp h with rfl | h'
      · exact Or.inr (Or.inl (List.mem_cons_self _ _))
      · rcases ih _ c h' with h'' | h'' | ⟨b', hb⟩
        · exact Or.inl h''
        · exact Or.inr (Or.inl (List.mem_cons_of_mem _ h''))
        · cases hb
    · rw [if_pos hx] at h
      rcases ih _ c h with h' | h' | ⟨b', hb⟩
      · exact Or.inl h'
      · exact Or.inr (Or.inl (List.mem_cons_of_mem _ h'))
      · cases hb
        exact Or.inr (Or.inr ⟨false, rfl⟩)
    · rw [if_neg hx] at h
      rcases List.mem_cons.mp h with rfl | h'
      · exact Or.inr (Or.inr ⟨false, rfl⟩)
      · rcases List.mem_cons.mp h' with rfl | h''
        · exact Or.inr (Or.inl (List.mem_cons_self _ _))
        · rcases ih _ c h'' with h3 | h3 | ⟨b', hb⟩
          · exact Or.inl h3
          · exact Or.inr (Or.inl (List.mem_cons_of_mem _ h3))
          · cases hb
    · rw [if_pos hx] at h
      rcases ih _ c h with h' | h' | ⟨b', hb⟩
      · exact Or.inl h'
      · exact Or.inr (Or.inl (List.mem_cons_of_mem _ h'))
      · cases hb
        exact Or.inr (Or.inr ⟨true, rfl⟩)
    · rw [if_neg hx] at h
      rcases List.mem_cons.mp h with rfl | h'
      · exact Or.inl rfl
      · rcases List.mem_cons.mp h' with rfl | h''
        · exact Or.inr (Or.inl (List.mem_cons_self _ _))
        · rcases ih _ c h'' with h3 | h3 | ⟨b', hb⟩
          · exact Or.inl h3
          · exact Or.inr (Or.inl (List.mem_cons_of_mem _ h3))
          · cases hb

theorem collapseWs_mem {l : List Char} {c : Char} (h : c ∈ collapseWs l) :
    c = ' ' ∨ c ∈ l := by
  rcases collapseGo_mem l none c h with h' | h' | ⟨b, hb⟩
  · exact Or.inl h'
  · exact Or.inr h'
  · cases hb

/-- The pair relation of `noAdjacentWs`. -/
theorem adjacent_ok_of_not_ws {a b : Char} (h : isWs b = false) :
    ¬(isWs a = true ∧ isWs b = true) := by
  rintro ⟨-, hb⟩
  rw [h] at hb
  cases hb

theorem collapseGo_chain : ∀ (l : List Char) (pending : Option (Char × Bool)),
    List.Chain' (fun a b => ¬(isWs a = true ∧ isWs b = true))
      (collapseGo pending l) := by
  intro l
  induction l with
  | nil =>
    rintro (_ | ⟨p, _ | _⟩) <;> simp [collapseGo]
  | cons x rest ih =>
    have hcons : ∀ (z : Char), isWs x = false →
        List.Chain' (fun a b => ¬(isWs a = true ∧ isWs b = true))
          (z :: x :: collapseGo none rest) := by
      intro z hxf
      refine List.chain'_cons'.mpr ⟨?_, ?_⟩
      · intro y hy
        rcases Option.some.inj hy with rfl
        exact adjacent_ok_of_not_ws hxf
      · refine List.chain'_cons'.mpr ⟨?_, ih none⟩
        intro y _ hc
        rw [hxf] at hc
        cases hc.1
    rintro (_ | ⟨p, _ | _⟩) <;> rw [collapseGo] <;> by_cases hx : isWs x <;>
      [skip; rw [if_neg hx]; skip; rw [if_neg hx]; skip; rw [if_neg hx]] <;>
      first
      | (rw [if_pos hx]; exact ih _)
      | (have hxf : isWs x = false := by
           cases h : isWs x
           · rfl
           · exact absurd h hx
         first
         | exact hcons _ hxf
         | (refine List.chain'_cons'.mpr ⟨?_, ih none⟩
            intro y _ hc
            rw [hxf] at hc
            cases hc.1))

theorem dropWhile_suffix_self (p : Char → Bool) :
    ∀ l : List Char, l.dropWhile p <:+ l := by
  intro l
  induction l with
  | nil => exact List.suffix_refl _
  | cons c rest ih =>
    rw [List.dropWhile]
    cases p c with
    | true => exact ih.trans (List.suffix_cons c rest)
    | false => exact List.suffix_refl _

theorem head_dropWhile_ws : ∀ (l : List Char) (c : Char),
    (l.dropWhile isWs).head? = some c → isWs c = false := by
  intro l
  induction l with
  | nil => intro c h; simp [List.dropWhile] at h
  | cons x rest ih =>
    intro c h
    rw [List.dropWhile] at h
    cases hx : isWs x with
    | true =>
      rw [hx] at h
      exact ih c h
    | false =>
      rw [hx] at h
      rcases Option.some.inj h with rfl
      exact hx

theorem mem_pyStrip {l : List Char} {c : Char} (h : c ∈ pyStrip l) : c ∈ l := by
  unfold pyStrip at h
  rw [List.mem_reverse] at h
  have h1 := (dropWhile_suffix_self isWs _).subset h
  rw [List.mem_reverse] at h1
  exact (dropWhile_suffix_self isWs _).subset h1

theorem pyStrip_chain {l : List Char}
    (h : List.Chain' (fun a b => ¬(isWs a = true ∧ isWs b = true)) l) :
    List.Chain' (fun a b => ¬(isWs a = true ∧ isWs b = true)) (pyStrip l) := by
  unfold pyStrip
  have himp : ∀ a b : Char, ¬(isWs a = true ∧ isWs b = true) →
      ¬(isWs b = true ∧ isWs a = true) := by
    intro a b hab hc
    exact hab ⟨hc.2, hc.1⟩
  have h1 := h.suffix (dropWhile_suffix_self isWs l)
  have h2 : List.Chain' (fun a b => ¬(isWs a = true ∧ isWs b = true))
      (l.dropWhile isWs).reverse :=
    List.chain'_reverse.mpr (h1.imp himp)
  have h3 := h2.suffix (dropWhile_suffix_self isWs _)
  exact List.chain'_reverse.mpr (h3.imp himp)

theorem pyStrip_head_ws {l : List Char} {c : Char}
    (h : (pyStrip l).head? = some c) : isWs c = false := by
  unfold pyStrip at h
  rw [List.head?_reverse] at h
  set Y := ((l.dropWhile isWs).reverse).dropWhile isWs with hY
  have hYne : Y ≠ [] := by
    intro hnil
    rw [hnil] at h
    simp at h
  obtain ⟨pre, hpre⟩ := dropWhile_suffix_self isWs ((l.dropWhile isWs).reverse)
  have : Y.getLast? = ((l.dropWhile isWs).reverse).getLast? := by
    rw [← hpre]
    exact (List.getLast?_append_of_ne_nil pre hYne).symm
  rw [this, List.getLast?_reverse] at h
  exact head_dropWhile_ws _ _ h

theorem pyStrip_last_ws {l : List Char} {c : Char}
    (h : (pyStrip l).getLast? = some c) : isWs c = false := by
  unfold pyStrip at h
  rw [List.getLast?_reverse] at h
  exact head_dropWhile_ws _ _ h

end Naming

/-- C9 counterexample: trailing dots are not trimmed — sanitizing
`"Name."` keeps the trailing dot, contradicting the claim that trailing
dots are removed (Python's `str.strip()` strips only whitespace). -/
theorem C9_counterexample :
    Naming.safeComponentStr "Name." = "Name." ∧
    (Naming.safeComponent "Name.".data).getLast? = some '.' := by
  exact ⟨rfl, rfl⟩

/-- C9 (amended): `_safe_component` strips filesystem-illegal characters,
collapses every run of two or more whitespace characters to a single
space (so no two adjacent whitespace characters survive), and trims
leading and trailing whitespace — but not trailing dots. -/
theorem C9_amended_sanitize (cs : List Char) :
    Naming.noIllegalChars (Naming.safeComponent cs) ∧
    Naming.noAdjacentWs (Naming.safeComponent cs) ∧
    Naming.trimmedWsEnds (Naming.safeComponent cs) := by
  refine ⟨?_, ?_, ?_, ?_⟩
  · intro c hc
    have h1 := Naming.mem_pyStrip hc
    rcases Naming.collapseWs_mem h1 with rfl | h2
    · rfl
    · exact Bool.not_eq_true _ ▸
        (by
          have := List.mem_filter.mp h2
          simpa using this.2)
  · exact Naming.pyStrip_chain (Naming.collapseGo_chain _ none)
  · intro c hc
    exact Naming.pyStrip_head_ws hc
  · intro c hc
    exact Naming.pyStrip_last_ws hc

/-! ### C5 — collision-safe link creation -/

namespace Symlink

theorem collisionName_render_inj (d : DPath) {m n : Nat}
    (h : (collisionName d m).render = (collisionName d n).render) : m = n := by
  simp only [collisionName, DPath.render, List.append_assoc, List.cons_append,
    List.singleton_append] at h
  have h1 := List.append_cancel_left h
  injection h1 with _ h2
  have h3 := List.append_cancel_left h2
  injection h3 with _ h4
  injection h4 with _ h5
  exact natStr_injective (List.append_cancel_right h5)

theorem existsPath_iff_mem (fs : FS) (p : FName) :
    FS.existsPath fs p = true ↔ p ∈ fs.map Prod.fst := by
  rw [FS.existsPath, List.any_eq_true]
  constructor
  · rintro ⟨e, he, heq⟩
    rw [beq_iff_eq] at heq
    exact List.mem_map.mpr ⟨e, he, heq⟩
  · intro h
    obtain ⟨e, he, heq⟩ := List.mem_map.mp h
    exact ⟨e, he, beq_iff_eq.mpr heq⟩

theorem exists_free (fs : FS) (d : DPath) :
    ∃ j, j < fs.length + 1 ∧
      FS.existsPath fs (collisionName d (1 + j)).render = false := by
  by_contra hall
  push_neg at hall
  have hmem : ∀ j : Fin (fs.length + 1),
      (collisionName d (1 + (j : Nat))).render ∈ fs.map Prod.fst := by
    intro j
    have h := hall j j.isLt
    rcases hb : FS.existsPath fs (collisionName d (1 + (j : Nat))).render with _ | _
    · exact absurd hb h
    · exact (existsPath_iff_mem fs _).mp hb
  have hinj : ∀ a ∈ (Finset.univ : Finset (Fin (fs.length + 1))),
      ∀ b ∈ (Finset.univ : Finset (Fin (fs.length + 1))),
      (collisionName d (1 + (a : Nat))).render =
        (collisionName d (1 + (b : Nat))).render → a = b := by
    intro a _ b _ hab
    have := collisionName_render_inj d hab
    exact Fin.ext (by omega)
  have hcard := Finset.card_le_card_of_injOn
    (fun j : Fin (fs.length + 1) => (collisionName d (1 + (j : Nat))).render)
    (fun j _ => List.mem_toFinset.mpr (hmem j)) hinj
  rw [Finset.card_univ, Fintype.card_fin] at hcard
  have hle := List.toFinset_card_le (fs.map Prod.fst)
  rw [List.length_map] at hle
  omega

theorem searchFree_spec (fs : FS) (d : DPath) :
    ∀ (fuel i : Nat),
      (∃ j, j < fuel ∧ FS.existsPath fs (collisionName d (i + j)).render = false) →
      ∃ j, j < fuel ∧
        searchFree fs d fuel i = collisionName d (i + j) ∧
        FS.existsPath fs (collisionName d (i + j)).render = false ∧
        ∀ k, k < j → FS.existsPath fs (collisionName d (i + k)).render = true := by
  intro fuel
  induction fuel with
  | zero =>
    rintro i ⟨j, hj, -⟩
    omega
  | succ fuel ih =>
    rintro i ⟨j0, hj0, hfree⟩
    cases hocc : FS.existsPath fs (collisionName d i).render with
    | false =>
      refine ⟨0, Nat.succ_pos _, ?_, ?_, fun k hk => absurd hk (Nat.not_lt_zero k)⟩
      · rw [searchFree, if_neg (by rw [hocc]; exact Bool.false_ne_true), Nat.add_zero]
      · rw [Nat.add_zero]
        exact hocc
    | true =>
      have hj0ne : j0 ≠ 0 := by
        rintro rfl
        rw [Nat.add_zero, hocc] at hfree
        cases hfree
      obtain ⟨j1, rfl⟩ : ∃ j1, j0 = j1 + 1 := ⟨j0 - 1, by omega⟩
      obtain ⟨j, hj, heq, hfr, hmin⟩ := ih (i + 1)
        ⟨j1, by omega, by
          rw [show i + 1 + j1 = i + (j1 + 1) from by omega]
          exact hfree⟩
      refine ⟨j + 1, by omega, ?_, ?_, ?_⟩
      · rw [searchFree, if_pos hocc, heq,
          show i + 1 + j = i + (j + 1) from by omega]
      · rw [show i + (j + 1) = i + 1 + j from by omega]
        exact hfr
      · intro k hk
        cases k with
        | zero =>
          rw [Nat.add_zero]
          exact hocc
        | succ k =>
          rw [show i + (k + 1) = i + 1 + k from by omega]
          exact hmin k (by omega)

theorem resolve_collision_spec (fs : FS) (d : DPath)
    (hex : FS.existsPath fs d.render = true) :
    ∃ n, 1 ≤ n ∧ resolve_collision fs d = collisionName d n ∧
      FS.existsPath fs (collisionName d n).render = false ∧
      ∀ m, 1 ≤ m → m < n → FS.existsPath fs (collisionName d m).render = true := by
  obtain ⟨j0, hj0, hfree⟩ := exists_free fs d
  obtain ⟨j, hj, heq, hfr, hmin⟩ := searchFree_spec fs d (fs.length + 1) 1
    ⟨j0, hj0, hfree⟩
  refine ⟨1 + j, by omega, ?_, hfr, ?_⟩
  · rw [resolve_collision, if_pos hex]
    exact heq
  · intro m h1 hm
    have h := hmin (m - 1) (by omega)
    rwa [show 1 + (m - 1) = m from by omega] at h

theorem find_some_existsPath {fs : FS} {p : FName} {e : Entry}
    (h : FS.find fs p = some e) : FS.existsPath fs p = true := by
  induction fs with
  | nil => cases h
  | cons x rest ih =>
    obtain ⟨q, ent⟩ := x
    rw [FS.find] at h
    by_cases hq : q = p
    · rw [FS.existsPath, List.any_cons]
      simp [hq]
    · rw [if_neg hq] at h
      have hr := ih h
      rw [FS.existsPath] at hr ⊢
      rw [List.any_cons, hr]
      simp

theorem isSymlink_existsPath {fs : FS} {p : FName}
    (h : FS.isSymlink fs p = true) : FS.existsPath fs p = true := by
  rw [FS.isSymlink] at h
  cases hf : FS.find fs p with
  | none =>
    rw [hf] at h
    cases h
  | some e =>
    cases e with
    | file =>
      rw [hf] at h
      cases h
    | link t => exact find_some_existsPath hf

theorem find_cons_ne {fs : FS} {p q : FName} {ent : Entry}
    (h : q ≠ p) : FS.find ((q, ent) :: fs) p = FS.find fs p := by
  rw [FS.find, if_neg h]

end Symlink

/-- C5: link creation never clobbers.  (1) A destination that is already
a symlink resolving to the source is a no-op reported as success.
(2) An occupied destination is rewritten to `base (n)ext` with the
smallest positive `n` whose name is free.  (3) Every pre-existing entry
is untouched by a `create_symlink` call.  (4) Planning the same name
twice against an unrelated occupant yields `Name (1).ext` then
`Name (2).ext`. -/
theorem C5_collision_no_clobber :
    (∀ (fs : Symlink.FS) (src : Symlink.FName) (d : Symlink.DPath) (ok : Bool),
      Symlink.FS.isSymlink fs d.render = true →
      Symlink.FS.resolve fs d.render = Symlink.FS.resolve fs src →
      Symlink.create_symlink fs src d ok = { ok := true, fs := fs }) ∧
    (∀ (fs : Symlink.FS) (d : Symlink.DPath),
      Symlink.FS.existsPath fs d.render = true →
      ∃ n, 1 ≤ n ∧
        Symlink.resolve_collision fs d = Symlink.collisionName d n ∧
        Symlink.FS.existsPath fs (Symlink.collisionName d n).render = false ∧
        ∀ m, 1 ≤ m → m < n →
          Symlink.FS.existsPath fs (Symlink.collisionName d m).render = true) ∧
    (∀ (fs : Symlink.FS) (src : Symlink.FName) (d : Symlink.DPath) (ok : Bool)
      (p : Symlink.FName) (e : Symlink.Entry),
      Symlink.FS.find fs p = some e →
      Symlink.FS.find (Symlink.create_symlink fs src d ok).fs p = some e) ∧
    ((Symlink.create_symlink Fixtures.fs0 Fixtures.src0 Fixtures.dest0 true).fs.map
        Prod.fst = ["r/Name (1).ext".data, "r/Name.ext".data] ∧
      ((Symlink.create_symlink
          (Symlink.create_symlink Fixtures.fs0 Fixtures.src0 Fixtures.dest0 true).fs
          Fixtures.src0 Fixtures.dest0 true).fs.map Prod.fst =
        ["r/Name (2).ext".data, "r/Name (1).ext".data, "r/Name.ext".data])) := by
  refine ⟨?_, ?_, ?_, by decide, by decide⟩
  · intro fs src d ok hsym hres
    rw [Symlink.create_symlink,
      if_pos (Symlink.isSymlink_existsPath hsym),
      if_pos (by rw [hsym, beq_iff_eq.mpr hres]; rfl)]
  · intro fs d hex
    exact Symlink.resolve_collision_spec fs d hex
  · intro fs src d ok p e h
    have hp : Symlink.FS.existsPath fs p = true := Symlink.find_some_existsPath h
    rw [Symlink.create_symlink]
    by_cases hex : Symlink.FS.existsPath fs d.render = true
    · rw [if_pos hex]
      by_cases hsym : (Symlink.FS.isSymlink fs d.render &&
          (Symlink.FS.resolve fs d.render == Symlink.FS.resolve fs src)) = true
      · rw [if_pos hsym]
        exact h
      · rw [if_neg hsym]
        cases ok with
        | false => exact h
        | true =>
          obtain ⟨n, -, heq, hfree, -⟩ := Symlink.resolve_collision_spec fs d hex
          have hne : (Symlink.resolve_collision fs d).render ≠ p := by
            intro hpp
            rw [heq] at hpp
            rw [hpp] at hfree
            rw [hp] at hfree
            cases hfree
          rw [if_pos rfl]
          rw [Symlink.find_cons_ne hne]
          exact h
    · rw [if_neg hex]
      cases ok with
      | false => exact h
      | true =>
        have hne : d.render ≠ p := by
          intro hpp
          rw [hpp] at hex
          exact hex hp
        rw [if_pos rfl]
        rw [Symlink.find_cons_ne hne]
        exact h

/-- Witness for C5 at a concrete input: a destination already symlinked
to the same source is left untouched and reported as success. -/
theorem C5_collision_no_clobber_witness :
    Symlink.create_symlink [("r/Name.ext".data, Symlink.Entry.link "s/F.ext".data)]
      "s/F.ext".data ⟨"r".data, "Name".data, ".ext".data⟩ true =
      { ok := true,
        fs := [("r/Name.ext".data, Symlink.Entry.link "s/F.ext".data)] } :=
  C5_collision_no_clobber.1 _ _ _ true (by decide) (by decide)

/-! ### C6 — tiered enrichment failure handling -/

/-- C6: a connection failure or a provider-level HTTP error permanently
disables enrichment (and once disabled, every later call returns no
opinion with no I/O attempted), whereas a timeout or malformed JSON
yields no opinion for that one call only, leaving the module state
untouched so a later good response still succeeds. -/
theorem C6_tiered_failures (D : Type) :
    (∀ (st : AIParser.AIState) (fn : String) (oc : AIParser.HTTPOutcome D),
      st.useAI = true →
      (oc = .connError ∨ ∃ c, oc = .httpError c) →
      (AIParser.ai_parse_filename st fn true oc).state.useAI = false ∧
      (AIParser.ai_parse_filename st fn true oc).output = none) ∧
    (∀ (st : AIParser.AIState) (fn : String) (up : Bool) (oc : AIParser.HTTPOutcome D),
      st.useAI = false →
      AIParser.ai_parse_filename st fn up oc =
        { state := st, output := none, attemptedIO := false }) ∧
    (∀ (st : AIParser.AIState) (calls : List (String × Bool × AIParser.HTTPOutcome D)),
      st.useAI = false →
      (AIParser.runCalls st calls).1.useAI = false ∧
      ∀ r ∈ (AIParser.runCalls st calls).2, r.1 = none ∧ r.2 = false) ∧
    (∀ (st : AIParser.AIState) (fn : String) (oc : AIParser.HTTPOutcome D),
      st.useAI = true → (oc = .timeout ∨ oc = .invalidJson) →
      AIParser.ai_parse_filename st fn true oc =
        { state := st, output := none, attemptedIO := true }) ∧
    (∀ (st : AIParser.AIState) (fn : String) (d : D),
      st.useAI = true →
      (AIParser.ai_parse_filename st fn true (.success d)).output = some d) := by
  refine ⟨?_, ?_, ?_, ?_, ?_⟩
  · rintro st fn oc hon (rfl | ⟨c, rfl⟩) <;>
      simp [AIParser.ai_parse_filename, AIParser.disable_ai, hon]
  · intro st fn up oc hoff
    simp [AIParser.ai_parse_filename, hoff]
  · intro st calls hoff
    induction calls generalizing st with
    | nil => exact ⟨hoff, by simp [AIParser.runCalls]⟩
    | cons c rest ih =>
      obtain ⟨fn, up, oc⟩ := c
      have hcall : AIParser.ai_parse_filename st fn up oc =
          { state := st, output := none, attemptedIO := false } := by
        simp [AIParser.ai_parse_filename, hoff]
      obtain ⟨h1, h2⟩ := ih st hoff
      constructor
      · simpa [AIParser.runCalls, hcall] using h1
      · intro r hr
        simp only [AIParser.runCalls, hcall] at hr
        rcases List.mem_cons.mp hr with rfl | hr'
        · exact ⟨rfl, rfl⟩
        · exact h2 r hr'
  · rintro st fn oc hon (rfl | rfl) <;> simp [AIParser.ai_parse_filename, hon]
  · intro st fn d hon
    simp [AIParser.ai_parse_filename, hon]

/-- Witness for C6 at concrete inputs: an HTTP 500 disables the module
state, and a later call under the disabled state does no I/O. -/
theorem C6_tiered_failures_witness :
    (AIParser.ai_parse_filename (D := Unit) ⟨true, none⟩ "f" true
        (.httpError (some 500))).state.useAI = false ∧
    AIParser.ai_parse_filename (D := Unit) ⟨false, some "down"⟩ "g" true .timeout =
      { state := ⟨false, some "down"⟩, output := none, attemptedIO := false } := by
  exact ⟨((C6_tiered_failures Unit).1 ⟨true, none⟩ "f" (.httpError (some 500)) rfl
      (Or.inr ⟨some 500, rfl⟩)).1,
    (C6_tiered_failures Unit).2.1 ⟨false, some "down"⟩ "g" true .timeout rfl⟩

/-! ### Processor helper lemmas shared by C1, C2 and C8 -/

namespace Processor

theorem ok_of_bind {ε α β : Type} {e : Except ε α} {f : α → Except ε β} {b : β}
    (h : e >>= f = .ok b) : ∃ a, e = .ok a ∧ f a = .ok b := by
  cases e with
  | ok a => exact ⟨a, rfl, h⟩
  | error err =>
    rw [show ((Except.error err : Except ε α) >>= f) = Except.error err from rfl] at h
    cases h

theorem StateMap.set_same (st : StateMap) (k : String) (v : ℚ) :
    StateMap.set st k v k = some v := by
  simp [StateMap.set]

theorem StateMap.set_other (st : StateMap) (k : String) (v : ℚ) (q : String)
    (h : q ≠ k) : StateMap.set st k v q = st q := by
  simp [StateMap.set, h]

theorem process_file_vanished {ε A : Type} (prov : Providers ε) (cfg : ProcConfig)
    (entry : FileEntry A) (state : StateMap) (dry : Bool)
    (h : entry.mtime = none) :
    process_file prov cfg entry state dry =
      .ok { state := state, sidecar := none, linkAttempt := none, result := none } := by
  simp only [process_file, h]
  rfl

theorem process_file_skip {ε A : Type} (prov : Providers ε) (cfg : ProcConfig)
    (entry : FileEntry A) (state : StateMap) (dry : Bool) (m : ℚ)
    (hm : entry.mtime = some m) (hs : state entry.key = some m) :
    process_file prov cfg entry state dry =
      .ok { state := state, sidecar := none, linkAttempt := none, result := none } := by
  simp only [process_file, hm, if_pos hs]
  rfl

theorem process_file_unsupported {ε A : Type} (prov : Providers ε) (cfg : ProcConfig)
    (entry : FileEntry A) (state : StateMap) (dry : Bool) (m : ℚ)
    (hm : entry.mtime = some m) (hs : state entry.key ≠ some m)
    (hsup : is_supported cfg entry.path = false) :
    process_file prov cfg entry state dry =
      .ok { state := StateMap.set state entry.key m, sidecar := none,
            linkAttempt := none, result := none } := by
  simp only [process_file, hm, if_neg hs, hsup]
  rfl

theorem process_file_fresh {ε A : Type} (prov : Providers ε) (cfg : ProcConfig)
    (entry : FileEntry A) (state : StateMap) (dry : Bool) (m : ℚ) (o : Outcome A)
    (hm : entry.mtime = some m) (hs : state entry.key ≠ some m)
    (hsup : is_supported cfg entry.path = true)
    (hok : process_file prov cfg entry state dry = .ok o) :
    ∃ ir pair, imdbCascade prov entry = .ok ir ∧
      tmdbFallback prov entry (imdbGate ir) = .ok pair ∧
      finishDecision prov cfg entry state dry m ir pair.1 pair.2
        (selectBest prov.ratio entry (imdbGate ir) pair.1 pair.2) = .ok o := by
  simp only [process_file, hm, if_neg hs, hsup, Bool.not_true, if_neg] at hok
  rw [if_neg (by simp)] at hok
  obtain ⟨ir, h1, hok⟩ := ok_of_bind hok
  obtain ⟨pair, h2, hok⟩ := ok_of_bind hok
  exact ⟨ir, pair, h1, h2, hok⟩

theorem finishDecision_ok_state {ε A : Type} (prov : Providers ε) (cfg : ProcConfig)
    (entry : FileEntry A) (state : StateMap) (dry : Bool) (mtime : ℚ)
    (ir mr sr : Option SearchResult)
    (pick : Option (SearchResult × String) × Option Similarity.Verdict)
    (o : Outcome A)
    (h : finishDecision prov cfg entry state dry mtime ir mr sr pick = .ok o) :
    o.state = StateMap.set state entry.key mtime := by
  obtain ⟨p1, p2⟩ := pick
  rcases p1 with _ | ⟨br, btype⟩ <;> rcases p2 with _ | sim <;>
    simp only [finishDecision] at h
  · rcases Except.ok.inj h with rfl; rfl
  · rcases Except.ok.inj h with rfl; rfl
  · rcases Except.ok.inj h with rfl; rfl
  · by_cases hacc : sim.accepted = true
    · rw [if_pos hacc] at h
      cases dry with
      | true =>
        rw [if_pos rfl] at h
        rcases Except.ok.inj h with rfl
        rfl
      | false =>
        rw [if_neg Bool.false_ne_true] at h
        obtain ⟨okb, -, h2⟩ := ok_of_bind h
        rcases Except.ok.inj h2 with rfl
        rfl
    · rw [if_neg hacc] at h
      rcases Except.ok.inj h with rfl
      rfl

theorem process_file_ok_state {ε A : Type} (prov : Providers ε) (cfg : ProcConfig)
    (entry : FileEntry A) (state : StateMap) (dry : Bool) (m : ℚ) (o : Outcome A)
    (hm : entry.mtime = some m) (hs : state entry.key ≠ some m)
    (hok : process_file prov cfg entry state dry = .ok o) :
    o.state = StateMap.set state entry.key m := by
  cases hsup : is_supported cfg entry.path with
  | false =>
    rw [process_file_unsupported prov cfg entry state dry m hm hs hsup] at hok
    rcases Except.ok.inj hok with rfl
    rfl
  | true =>
    obtain ⟨ir, pair, -, -, h3⟩ :=
      process_file_fresh prov cfg entry state dry m o hm hs hsup hok
    exact finishDecision_ok_state prov cfg entry state dry m ir pair.1 pair.2 _ o h3

theorem selectBest_none_none {A : Type} (ratio : String → String → ℚ)
    (entry : FileEntry A) (im mr sr : Option SearchResult)
    (h : (selectBest ratio entry im mr sr).1 = none) :
    (selectBest ratio entry im mr sr).2 = none := by
  rcases im with _ | r
  · rcases mr with _ | mrr <;> rcases sr with _ | srr
    · rfl
    · simp [selectBest] at h
    · simp [selectBest] at h
    · rw [selectBest] at h
      split at h <;> simp at h
  · simp [selectBest] at h

theorem finishDecision_cases {ε A : Type} (prov : Providers ε) (cfg : ProcConfig)
    (entry : FileEntry A) (state : StateMap) (dry : Bool) (mtime : ℚ)
    (ir mr sr : Option SearchResult)
    (pick : Option (SearchResult × String) × Option Similarity.Verdict)
    (o : Outcome A)
    (h : finishDecision prov cfg entry state dry mtime ir mr sr pick = .ok o) :
    (∃ br btype sim, pick = (some (br, btype), some sim) ∧ sim.accepted = true ∧
      o.sidecar = none ∧ o.result ≠ none) ∨
    ((pick.1 = none ∨ pick.2 = none ∨
        ∃ sim, pick.2 = some sim ∧ sim.accepted = false) ∧
      o = { state := StateMap.set state entry.key mtime,
            sidecar := some (unmatchedRecord cfg entry ir mr sr pick.2),
            linkAttempt := none, result := none }) := by
  obtain ⟨p1, p2⟩ := pick
  rcases p1 with _ | ⟨br, btype⟩ <;> rcases p2 with _ | sim <;>
    simp only [finishDecision] at h
  · rcases Except.ok.inj h with rfl
    exact Or.inr ⟨Or.inl rfl, rfl⟩
  · rcases Except.ok.inj h with rfl
    exact Or.inr ⟨Or.inl rfl, rfl⟩
  · rcases Except.ok.inj h with rfl
    exact Or.inr ⟨Or.inr (Or.inl rfl), rfl⟩
  · by_cases hacc : sim.accepted = true
    · rw [if_pos hacc] at h
      left
      refine ⟨br, btype, sim, rfl, hacc, ?_⟩
      cases dry with
      | true =>
        rw [if_pos rfl] at h
        rcases Except.ok.inj h with rfl
        exact ⟨rfl, by simp⟩
      | false =>
        rw [if_neg Bool.false_ne_true] at h
        obtain ⟨okb, -, h2⟩ := ok_of_bind h
        rcases Except.ok.inj h2 with rfl
        exact ⟨rfl, by simp⟩
    · rw [if_neg hacc] at h
      rcases Except.ok.inj h with rfl
      exact Or.inr ⟨Or.inr (Or.inr ⟨sim, rfl, Bool.not_eq_true _ ▸ hacc⟩), rfl⟩

theorem exceptEmpty_ok {α : Type} (x : Except Empty α) : ∃ a, x = .ok a := by
  cases x with
  | ok a => exact ⟨a, rfl⟩
  | error e => exact e.elim

theorem process_entry_vanished {A : Type} (prov : Providers Empty) (cfg : ProcConfig)
    (dry : Bool) (st : StateMap) (e : FileEntry A) (h : e.mtime = none) :
    process_entry prov cfg dry st e = (st, none) := by
  rw [process_entry, process_file_vanished prov cfg e st dry h]

theorem process_entry_skip {A : Type} (prov : Providers Empty) (cfg : ProcConfig)
    (dry : Bool) (st : StateMap) (e : FileEntry A) (m : ℚ)
    (hm : e.mtime = some m) (hs : st e.key = some m) :
    process_entry prov cfg dry st e = (st, none) := by
  rw [process_entry, process_file_skip prov cfg e st dry m hm hs]

theorem process_entry_fresh_state {A : Type} (prov : Providers Empty)
    (cfg : ProcConfig) (dry : Bool) (st : StateMap) (e : FileEntry A) (m : ℚ)
    (hm : e.mtime = some m) (hs : st e.key ≠ some m) :
    (process_entry prov cfg dry st e).1 = StateMap.set st e.key m := by
  obtain ⟨o, ho⟩ := exceptEmpty_ok (process_file prov cfg e st dry)
  rw [process_entry, ho]
  exact process_file_ok_state prov cfg e st dry m o hm hs ho

theorem process_entry_key_after {A : Type} (prov : Providers Empty)
    (cfg : ProcConfig) (dry : Bool) (st : StateMap) (e x : FileEntry A) (m : ℚ)
    (hx : st x.key = some m)
    (hcons : ∀ m', e.mtime = some m' → e.key = x.key → m' = m) :
    (process_entry prov cfg dry st e).1 x.key = some m := by
  cases he : e.mtime with
  | none =>
    rw [process_entry_vanished prov cfg dry st e he]
    exact hx
  | some m' =>
    by_cases hsk : st e.key = some m'
    · rw [process_entry_skip prov cfg dry st e m' he hsk]
      exact hx
    · rw [process_entry_fresh_state prov cfg dry st e m' he hsk]
      by_cases hk : x.key = e.key
      · rw [hk, StateMap.set_same, hcons m' he hk.symm]
      · rw [StateMap.set_other st e.key m' x.key hk]
        exact hx

theorem process_once_keeps {A : Type} (prov : Providers Empty) (cfg : ProcConfig)
    (dry : Bool) (x : FileEntry A) (m : ℚ) :
    ∀ (entries : List (FileEntry A)) (st : StateMap),
      (∀ e ∈ entries, ∀ m', e.mtime = some m' → e.key = x.key → m' = m) →
      st x.key = some m →
      (process_once prov cfg dry entries st).1 x.key = some m := by
  intro entries
  induction entries with
  | nil =>
    intro st _ hx
    exact hx
  | cons e rest ih =>
    intro st hcons hx
    rw [process_once]
    exact ih _ (fun e' he' => hcons e' (List.mem_cons_of_mem _ he'))
      (process_entry_key_after prov cfg dry st e x m hx
        (hcons e (List.mem_cons_self _ _)))

theorem process_once_after {A : Type} (prov : Providers Empty) (cfg : ProcConfig)
    (dry : Bool) :
    ∀ (entries : List (FileEntry A)) (st0 : StateMap),
      (∀ e1 ∈ entries, ∀ e2 ∈ entries, e1.key = e2.key → e1.mtime = e2.mtime) →
      ∀ e ∈ entries, ∀ m, e.mtime = some m →
        (process_once prov cfg dry entries st0).1 e.key = some m := by
  intro entries
  induction entries with
  | nil =>
    intro st0 _ e he
    cases he
  | cons x rest ih =>
    intro st0 hcons e he m hm
    rcases List.mem_cons.mp he with rfl | hrest
    · rw [process_once]
      refine process_once_keeps prov cfg dry e m rest _ ?_ ?_
      · intro e' he' m' hm' hk
        have hme := hcons e' (List.mem_cons_of_mem _ he') e
          (List.mem_cons_self _ _) hk
        rw [hm', hm] at hme
        exact Option.some.inj hme
      · by_cases hsk : st0 e.key = some m
        · rw [process_entry_skip prov cfg dry st0 e m hm hsk]
          exact hsk
        · rw [process_entry_fresh_state prov cfg dry st0 e m hm hsk]
          exact StateMap.set_same _ _ _
    · rw [process_once]
      exact ih _ (fun e1 h1 e2 h2 =>
        hcons e1 (List.mem_cons_of_mem _ h1) e2 (List.mem_cons_of_mem _ h2))
        e hrest m hm

theorem process_once_clean {A : Type} (prov : Providers Empty) (cfg : ProcConfig)
    (dry : Bool) :
    ∀ (entries : List (FileEntry A)) (st : StateMap),
      (∀ e ∈ entries, ∀ m, e.mtime = some m → st e.key = some m) →
      process_once prov cfg dry entries st = (st, []) := by
  intro entries
  induction entries with
  | nil =>
    intro st _
    rfl
  | cons e rest ih =>
    intro st h
    have he : process_entry prov cfg dry st e = (st, none) := by
      cases hm : e.mtime with
      | none => exact process_entry_vanished prov cfg dry st e hm
      | some m =>
        exact process_entry_skip prov cfg dry st e m hm
          (h e (List.mem_cons_self _ _) m hm)
    rw [process_once, he]
    rw [ih st (fun e' he' => h e' (List.mem_cons_of_mem _ he'))]
    rfl

end Processor

/-! ### C1 — state-update (a)symmetry of the scan loop -/

/-- C1 counterexample: a file whose link creation fails (both mechanisms,
`create_symlink` returns `False`) still gets its state entry written —
`state[key] = mtime` on line 182 of `processor.py` runs regardless of the
link result — so the file is *not* retried on the next pass, contradicting
the claimed asymmetry. -/
theorem C1_counterexample :
    (Processor.process_file Fixtures.provLinkFail Fixtures.cfg0 Fixtures.entry0
        Fixtures.state0 false).map
      (fun o => (o.state "k", o.linkAttempt.map Prod.snd, o.sidecar.isSome)) =
    .ok (some 1, some false, false) := rfl

/-- C1 (amended): the state entry is written (with the stat mtime) exactly
when the file reaches a decision — unsupported, unmatched, or a link
attempt regardless of its success (also in dry-run); it is not written
when the file vanished before stat, when it is skipped as unchanged, or
when an exception escapes mid-pipeline (caught at the per-file boundary,
leaving the state as it was). -/
theorem C1_amended_state_update {ε A : Type} (prov : Processor.Providers ε)
    (cfg : Processor.ProcConfig) (entry : Processor.FileEntry A)
    (state : Processor.StateMap) (dry : Bool) :
    (entry.mtime = none →
      Processor.process_file prov cfg entry state dry =
        .ok { state := state, sidecar := none, linkAttempt := none, result := none }) ∧
    (∀ m, entry.mtime = some m → state entry.key = some m →
      Processor.process_file prov cfg entry state dry =
        .ok { state := state, sidecar := none, linkAttempt := none, result := none }) ∧
    (∀ e, Processor.process_file prov cfg entry state dry = .error e →
      Processor.process_entry prov cfg dry state entry = (state, none)) ∧
    (∀ m o, entry.mtime = some m → state entry.key ≠ some m →
      Processor.process_file prov cfg entry state dry = .ok o →
      o.state = Processor.StateMap.set state entry.key m) := by
  refine ⟨?_, ?_, ?_, ?_⟩
  · intro h
    exact Processor.process_file_vanished prov cfg entry state dry h
  · intro m hm hs
    exact Processor.process_file_skip prov cfg entry state dry m hm hs
  · intro e he
    rw [Processor.process_entry, he]
  · intro m o hm hs hok
    exact Processor.process_file_ok_state prov cfg entry state dry m o hm hs hok

/-- Witness for C1 at a concrete input: an unchanged file is skipped with
the state left untouched. -/
theorem C1_amended_state_update_witness :
    Processor.process_file Fixtures.provLinkOk Fixtures.cfg0 Fixtures.entry0
      (Processor.StateMap.set Fixtures.state0 "k" 1) false =
      .ok { state := Processor.StateMap.set Fixtures.state0 "k" 1,
            sidecar := none, linkAttempt := none, result := none } :=
  (C1_amended_state_update Fixtures.provLinkOk Fixtures.cfg0 Fixtures.entry0
    (Processor.StateMap.set Fixtures.state0 "k" 1) false).2.1 1 rfl rfl

/-! ### C2 — unmatched files always get a sidecar and no link -/

/-- C2: every fresh, supported file that completes `process_file` either
is accepted (no sidecar, a returned destination) or yields a full sidecar
record — named after the file's stem in the unmatched root, carrying the
raw file path, the enrichment hints, and exactly the candidates the
pipeline considered with their scores (the IMDb cascade result and the
two TMDB fallback results, each a `SearchResult` carrying its score) —
with no link attempted and nothing returned; unmatched files are never
silently dropped. -/
theorem C2_unmatched_sidecar {ε A : Type} (prov : Processor.Providers ε)
    (cfg : Processor.ProcConfig) (entry : Processor.FileEntry A)
    (state : Processor.StateMap) (dry : Bool) (m : ℚ) (o : Processor.Outcome A)
    (hm : entry.mtime = some m) (hs : state entry.key ≠ some m)
    (hsup : Processor.is_supported cfg entry.path = true)
    (hok : Processor.process_file prov cfg entry state dry = .ok o) :
    ∃ ir pair,
      Processor.imdbCascade prov entry = .ok ir ∧
      Processor.tmdbFallback prov entry (Processor.imdbGate ir) = .ok pair ∧
      ((o.sidecar = none ∧ o.result ≠ none) ∨
        (∃ sc, o.sidecar = some sc ∧ o.linkAttempt = none ∧ o.result = none ∧
          sc.path = cfg.roots.unmatched_dir ++ [entry.path.stem ++ ".json"] ∧
          sc.file = Processor.srcRender entry.path ∧
          sc.ai = entry.parsed.ai_data ∧
          sc.imdb = ir ∧
          sc.movie = pair.1 ∧
          sc.show_r = pair.2 ∧
          (sc.similarity = none ∨
            ∃ v, sc.similarity = some v ∧ v.accepted = false))) := by
  obtain ⟨ir, pair, h1, h2, h3⟩ :=
    Processor.process_file_fresh prov cfg entry state dry m o hm hs hsup hok
  refine ⟨ir, pair, h1, h2, ?_⟩
  rcases Processor.finishDecision_cases prov cfg entry state dry m ir pair.1 pair.2
      _ o h3 with ⟨br, bt, sim, -, -, hsc, hres⟩ | ⟨hun, ho⟩
  · exact Or.inl ⟨hsc, hres⟩
  · right
    refine ⟨Processor.unmatchedRecord cfg entry ir pair.1 pair.2
      (Processor.selectBest prov.ratio entry (Processor.imdbGate ir) pair.1 pair.2).2,
      by rw [ho], by rw [ho], by rw [ho], rfl, rfl, rfl, rfl, rfl, rfl, ?_⟩
    rcases hun with hp1 | hp1 | ⟨sim, hsim, hacc⟩
    · left
      exact Processor.selectBest_none_none prov.ratio entry
        (Processor.imdbGate ir) pair.1 pair.2 hp1
    · exact Or.inl hp1
    · exact Or.inr ⟨sim, hsim, hacc⟩

/-- Witness for C2 at a concrete input: with providers that return no
candidates the file is not silently dropped — a sidecar or a result is
produced (here, the sidecar). -/
theorem C2_unmatched_sidecar_witness :
    (Processor.process_file Fixtures.provNone Fixtures.cfg0 Fixtures.entry0
        Fixtures.state0 false).map
      (fun o => o.sidecar.isSome || o.result.isSome) = .ok true := by
  cases hok : Processor.process_file Fixtures.provNone Fixtures.cfg0 Fixtures.entry0
      Fixtures.state0 false with
  | error e => exact e.elim
  | ok o =>
    rcases C2_unmatched_sidecar Fixtures.provNone Fixtures.cfg0 Fixtures.entry0
        Fixtures.state0 false 1 o rfl (by simp [Fixtures.state0]) rfl hok with
      ⟨ir, pair, -, -, ⟨hsc, hres⟩ | ⟨sc, hsc, -, -, -, -, -, -, -, -, -⟩⟩
    · have : o.result.isSome = true := Option.isSome_iff_ne_none.mpr hres
      simp [Except.map, this]
    · simp [Except.map, hsc]

/-! ### C8 — idempotence of the scan pass -/

/-- C8: a file re-enters the pipeline only when its current mtime differs
from the recorded value (an unchanged file is skipped with no state
change, no sidecar, no link); consequently — providers deterministic and
non-raising, per-key mtimes consistent — running the pass a second time
over the unchanged enumeration performs no link operations and leaves the
state snapshot unchanged. -/
theorem C8_idempotent_scan {A : Type} (prov : Processor.Providers Empty)
    (cfg : Processor.ProcConfig) (dry : Bool)
    (entries : List (Processor.FileEntry A)) (state0 : Processor.StateMap)
    (hcons : ∀ e1 ∈ entries, ∀ e2 ∈ entries, e1.key = e2.key →
      e1.mtime = e2.mtime) :
    (∀ (e : Processor.FileEntry A) (st : Processor.StateMap) (m : ℚ),
      e.mtime = some m → st e.key = some m →
      Processor.process_file prov cfg e st dry =
        .ok { state := st, sidecar := none, linkAttempt := none, result := none }) ∧
    Processor.process_once prov cfg dry entries
        ((Processor.process_once prov cfg dry entries state0).1) =
      ((Processor.process_once prov cfg dry entries state0).1, []) := by
  constructor
  · intro e st m hm hs
    exact Processor.process_file_skip prov cfg e st dry m hm hs
  · exact Processor.process_once_clean prov cfg dry entries _
      (fun e he m hm =>
        Processor.process_once_after prov cfg dry entries state0 hcons e he m hm)

/-- Witness for C8 at a concrete input: a second pass over one unchanged
file does nothing. -/
theorem C8_idempotent_scan_witness :
    Processor.process_once Fixtures.provNone Fixtures.cfg0 false [Fixtures.entry0]
        ((Processor.process_once Fixtures.provNone Fixtures.cfg0 false
          [Fixtures.entry0] Fixtures.state0).1) =
      ((Processor.process_once Fixtures.provNone Fixtures.cfg0 false
        [Fixtures.entry0] Fixtures.state0).1, []) :=
  (C8_idempotent_scan Fixtures.provNone Fixtures.cfg0 false [Fixtures.entry0]
    Fixtures.state0 (by
      intro e1 h1 e2 h2 _
      rcases List.mem_singleton.mp h1 with rfl
      rcases List.mem_singleton.mp h2 with rfl
      rfl)).2

end Scanly
